import Mathlib

/-!
Verification of the wikidot-to-HTML compiler (`bin/wikidot_to_html.py`).

The Python program is embedded shallowly: each regular expression of the
source is translated into an executable matching function on `String`
(with the exact greedy/lazy backtracking behaviour of the Python `re`
module for that particular pattern), each class into a structure or
inductive type, and the mutable driver loop into explicit state passing.
Output streams are modelled as the list of strings passed to `write`.
-/

namespace Wikidot

/-! ## String utilities mirroring Python primitives -/

/-- Python whitespace for `\s` and `str.strip` (ASCII range). -/
def pyIsSpace (c : Char) : Bool :=
  c = ' ' || c = '\t' || c = '\n' || c = '\r' || c = '\x0b' || c = '\x0c'

/-- Python `str.rstrip()`. -/
def pyRstrip (s : String) : String :=
  String.mk (s.data.reverse.dropWhile pyIsSpace).reverse

/-- Python `str.rstrip('/')`. -/
def pyRstripSlash (s : String) : String :=
  String.mk (s.data.reverse.dropWhile (· = '/')).reverse

/-- Python `str.lstrip('/')`. -/
def pyLstripSlash (s : String) : String :=
  String.mk (s.data.dropWhile (· = '/'))

/-- `html.escape` for one character (`quote=True`, as used throughout). -/
def htmlEscapeChar (c : Char) : String :=
  if c = '&' then "&amp;"
  else if c = '<' then "&lt;"
  else if c = '>' then "&gt;"
  else if c = '"' then "&quot;"
  else if c = '\'' then "&#x27;"
  else String.mk [c]

/-- `html.escape(s, quote=True)` (the default, used by all call sites). -/
def htmlEscape (s : String) : String :=
  s.data.foldl (fun acc c => acc ++ htmlEscapeChar c) ""

/-- `RX_SPACE.sub('&#32;', s)`: replace every space character. -/
def subSpaces (s : String) : String :=
  s.data.foldl (fun acc c => acc ++ (if c = ' ' then "&#32;" else String.mk [c])) ""

/-- Python `str.startswith` (character-list based for provability). -/
def sw (s p : String) : Bool := p.data.isPrefixOf s.data

/-- Python `str.endswith`. -/
def ew (s p : String) : Bool := p.data.reverse.isPrefixOf s.data.reverse

/-- Whether a character list contains a newline (which `.` cannot match). -/
def hasNL (l : List Char) : Bool :=
  l.any (fun c => c = '\n')

/-- Position of `$` in a non-MULTILINE Python regex: the pattern body must
end at the end of the string, or just before one trailing newline. -/
def dollarTrim (s : String) : String :=
  if ew s "\n" then String.mk s.data.dropLast else s

/-- Shared tail of the line patterns: the lazy `(?P<content>.*?)` followed by
the optional `(?P<br> _)?` group strips exactly one trailing ' _'. -/
def stripBr (t : String) : String × Bool :=
  if ew t " _" then (String.mk t.data.dropLast.dropLast, true)
  else (t, false)

/-! ## Block-level regular expressions (`RX_*` of the source) -/

/-- `RX_BLOCKQUOTE = ^(?P<greater_than_signs>>+)\s*(?P<content>.*?)(?P<br> _)?$`.
Returns (number of leading `>`, content, whether the br group matched). -/
def rxBlockquote (s : String) : Option (Nat × String × Bool) :=
  let e := dollarTrim s
  let gts := e.data.takeWhile (· = '>')
  if gts.length = 0 then none else
  let rest := (e.data.drop gts.length).dropWhile pyIsSpace
  if hasNL rest then none else
  some (gts.length, stripBr (String.mk rest))

/-- Common shape `^(?P<indent>\s*)MARKER\s+(?P<content>\S.*?)(?P<br> _)?$`
for `RX_UL` (marker `*`) and `RX_OL` (marker `#`). -/
def rxListLine (marker : Char) (s : String) : Option (String × String × Bool) :=
  let e := dollarTrim s
  let indent := e.data.takeWhile pyIsSpace
  match e.data.drop indent.length with
  | [] => none
  | c :: r2 =>
    if c = marker then
      let wsRun := r2.takeWhile pyIsSpace
      if wsRun.length = 0 then none else
      let r3 := r2.drop wsRun.length
      if r3.length = 0 then none else
      if hasNL r3 then none else
      some (String.mk indent, stripBr (String.mk r3))
    else none

def rxUL (s : String) : Option (String × String × Bool) := rxListLine '*' s

def rxOL (s : String) : Option (String × String × Bool) := rxListLine '#' s

/-- `RX_HN = ^(?P<indent>\s*)(?P<plus_signs>\+{1,6})\s+(?P<content>\S.*?)(?P<br> _)?$`.
A run of more than six `+` cannot match (the next char is `+`, not space). -/
def rxHN (s : String) : Option (String × Nat × String × Bool) :=
  let e := dollarTrim s
  let indent := e.data.takeWhile pyIsSpace
  let r1 := e.data.drop indent.length
  let plus := r1.takeWhile (· = '+')
  if plus.length = 0 || plus.length > 6 then none else
  let r2 := r1.drop plus.length
  let wsRun := r2.takeWhile pyIsSpace
  if wsRun.length = 0 then none else
  let r3 := r2.drop wsRun.length
  if r3.length = 0 then none else
  if hasNL r3 then none else
  let (content, br) := stripBr (String.mk r3)
  some (String.mk indent, plus.length, content, br)

/-- `RX_HR = ^(?P<indent>\s*)----(?P<content>)(?P<br> _)?$`. -/
def rxHR (s : String) : Option (String × Bool) :=
  let e := dollarTrim s
  let indent := e.data.takeWhile pyIsSpace
  let r := String.mk (e.data.drop indent.length)
  if r = "----" then some (String.mk indent, false)
  else if r = "---- _" then some (String.mk indent, true)
  else none

/-- `RX_TABLE = ^(?P<indent>\s*)(?P<content>\|\|.*?)(?P<br> _)?$`
(the content group includes the leading `||`). -/
def rxTable (s : String) : Option (String × String × Bool) :=
  let e := dollarTrim s
  let indent := e.data.takeWhile pyIsSpace
  let r := e.data.drop indent.length
  if r.take 2 = ['|', '|'] then
    if hasNL r then none else
    some (String.mk indent, stripBr (String.mk r))
  else none

/-- `RX_EMPTY = ^\s*(?P<content>)(?P<br> _)?$`. Returns whether br matched. -/
def rxEmpty (s : String) : Option Bool :=
  let e := dollarTrim s
  if e.data.all pyIsSpace then some false
  else if ew e " _" && e.data.dropLast.dropLast.all pyIsSpace then
    some true
  else none

/-- `RX_P = ^\s*(?P<content>.*?)(?P<br> _)?$`. Fails only when an interior
newline prevents the dot from reaching the `$` position. -/
def rxP (s : String) : Option (String × Bool) :=
  let e := dollarTrim s
  let t := e.data.dropWhile pyIsSpace
  if hasNL t then none else
  some (stripBr (String.mk t))

/-- `RX_BLANK_LINE = ^\s*$` via `.search` (anchored at position 0). -/
def rxBlankLine (s : String) : Bool :=
  (dollarTrim s).data.all pyIsSpace

/-- `RX_CODE_END = ^\[\[/code\]\]$` (no indent allowed). -/
def rxCodeEnd (s : String) : Bool :=
  dollarTrim s = "[[/code]]"

/-- `RX_MATH_END = ^\[\[/math\]\]$`. -/
def rxMathEnd (s : String) : Bool :=
  dollarTrim s = "[[/math]]"

/-- `RX_CODE_CONTENT = ^(?P<content>.*?)$` (likewise `RX_MATH_CONTENT`). -/
def rxContentLine (s : String) : Option String :=
  let e := dollarTrim s
  if hasNL e.data then none else some e

/-- Candidate scan for the lazy `type="(.*?)"\s*` part of `RX_CODE_START`:
find the first closing quote whose continuation `\s*\]\](.*)$` succeeds.
Returns (type value, content after the `]]`). -/
def codeTypeScan : List Char → List Char → Option (String × String)
  | acc, c :: rest =>
    if c = '"' then
      let afterWs := rest.dropWhile pyIsSpace
      if afterWs.take 2 = [']', ']'] && !hasNL (afterWs.drop 2) then
        some (String.mk acc.reverse, String.mk (afterWs.drop 2))
      else
        codeTypeScan (c :: acc) rest
    else codeTypeScan (c :: acc) rest
  | _, [] => none

/-- `RX_CODE_START =
^(?P<indent>\s*)(?P<raw_tag>\[\[code(\s+type="(?P<type>.*?)"\s*)?\]\])(?P<content>.*)$`.
Returns (indent, type group or none, content after the tag). -/
def rxCodeStart (s : String) : Option (String × Option String × String) :=
  let e := dollarTrim s
  let indent := e.data.takeWhile pyIsSpace
  let r := e.data.drop indent.length
  if r.take 6 = "[[code".data then
    let r6 := r.drop 6
    -- the optional group (tried first by the regex engine): \s+type="(.*?)"\s*
    let wsRun := r6.takeWhile pyIsSpace
    let viaType : Option (String × Option String × String) :=
      if wsRun.length = 0 then none else
      let r7 := r6.drop wsRun.length
      if r7.take 6 = "type=\"".data then
        match codeTypeScan [] (r7.drop 6) with
        | some (ty, content) => some (String.mk indent, some ty, content)
        | none => none
      else none
    match viaType with
    | some res => some res
    | none =>
      if r6.take 2 = [']', ']'] && !hasNL (r6.drop 2) then
        some (String.mk indent, none, String.mk (r6.drop 2))
      else none
  else none

/-- `RX_MATH_START = ^(?P<indent>\s*)(?P<raw_tag>\[\[math\]\])(?P<content>.*)$`. -/
def rxMathStart (s : String) : Option (String × String) :=
  let e := dollarTrim s
  let indent := e.data.takeWhile pyIsSpace
  let r := e.data.drop indent.length
  if r.take 8 = "[[math]]".data && !hasNL (r.drop 8) then
    some (String.mk indent, String.mk (r.drop 8))
  else none

/-- `RX_DIV_START = ^(?P<indent>\s*)(?P<raw_tag>\[\[div(?P<attributes>.*)\]\])$`.
Returns the attributes group. -/
def rxDivStart (s : String) : Option String :=
  let e := dollarTrim s
  let indent := e.data.takeWhile pyIsSpace
  let r := e.data.drop indent.length
  if r.take 5 = "[[div".data && r.length ≥ 7 then
    let mid := (r.drop 5).dropLast.dropLast
    if (r.drop (r.length - 2)) = [']', ']'] && !hasNL mid then
      some (String.mk mid)
    else none
  else none

/-- `RX_DIV_END = ^\[\[/div\]\]$`. -/
def rxDivEnd (s : String) : Bool :=
  dollarTrim s = "[[/div]]"

/-! ## Inline-lexer regular expressions

Every string fed into the inline lexer is the `content` capture group of a
line pattern and is matched by `.`-based groups, so it never contains a
newline; the embeddings below therefore omit the `$`-before-newline cases. -/

/-- Character class `[a-zA-Z0-9-._~:/#&?=+,;]` of `RX_URL`. -/
def urlBodyChar (c : Char) : Bool :=
  c.isAlpha || c.isDigit || c = '-' || c = '.' || c = '_' || c = '~' ||
  c = ':' || c = '/' || c = '#' || c = '&' || c = '?' || c = '=' ||
  c = '+' || c = ',' || c = ';'

/-- Character class `[a-zA-Z0-9-_~/#&?=+]` (last char of `RX_URL`). -/
def urlLastChar (c : Char) : Bool :=
  c.isAlpha || c.isDigit || c = '-' || c = '_' || c = '~' || c = '/' ||
  c = '#' || c = '&' || c = '?' || c = '=' || c = '+'

/-- `RX_URL = ^(?P<token>https?://[...]*[...])(?P<text>.*)$`: greedy body run
backtracking until the final character is in the narrower class, i.e. the
trailing `.,:;` characters are trimmed. -/
def rxURL (s : String) : Option (String × String) :=
  let d := s.data
  let parsed : Option (List Char × List Char) :=
    if d.take 7 = "http://".data then some (d.take 7, d.drop 7)
    else if d.take 8 = "https://".data then some (d.take 8, d.drop 8)
    else none
  match parsed with
  | none => none
  | some (scheme, rest) =>
    let run := rest.takeWhile urlBodyChar
    let kept := (run.reverse.dropWhile (fun c => !urlLastChar c)).reverse
    if kept.length = 0 then none else
    some (String.mk (scheme ++ kept), String.mk (rest.drop kept.length))

/-- `RX_URL_FRAGMENT = ^#[a-zA-Z0-9][a-zA-Z0-9-_]*$`. -/
def rxURLFragment (s : String) : Bool :=
  match s.data with
  | '#' :: c :: rest =>
    (c.isAlpha || c.isDigit) &&
    rest.all (fun d => d.isAlpha || d.isDigit || d = '-' || d = '_')
  | _ => false

/-- `RX_TRIPLE_BRACKET =
(?P<token>^\[\[\[[^\]|]+(\|[^\]|]+)?\]\]\])(?P<text>.*)$`. -/
def rxTripleBracketTok (s : String) : Option (String × String) :=
  let d := s.data
  if d.take 3 = "[[[".data then
    let r := d.drop 3
    let p1 := r.takeWhile (fun c => c ≠ ']' && c ≠ '|')
    if p1.length = 0 then none else
    let r2 := r.drop p1.length
    let viaPipe : Option (String × String) :=
      match r2 with
      | '|' :: r3 =>
        let p2 := r3.takeWhile (fun c => c ≠ ']' && c ≠ '|')
        if p2.length = 0 then none else
        let r4 := r3.drop p2.length
        if r4.take 3 = "]]]".data then
          some ("[[[" ++ String.mk p1 ++ "|" ++ String.mk p2 ++ "]]]",
                String.mk (r4.drop 3))
        else none
      | _ => none
    match viaPipe with
    | some res => some res
    | none =>
      if r2.take 3 = "]]]".data then
        some ("[[[" ++ String.mk p1 ++ "]]]", String.mk (r2.drop 3))
      else none
  else none

/-- `RX_DOUBLE_BRACKET = ^(?P<token>\[\[[^\]]+\]\])(?P<text>.*)$`. -/
def rxDoubleBracketTok (s : String) : Option (String × String) :=
  let d := s.data
  if d.take 2 = "[[".data then
    let r := d.drop 2
    let mid := r.takeWhile (· ≠ ']')
    if mid.length = 0 then none else
    let r2 := r.drop mid.length
    if r2.take 2 = "]]".data then
      some ("[[" ++ String.mk mid ++ "]]", String.mk (r2.drop 2))
    else none
  else none

/-- `RX_SINGLE_BRACKET = ^(?P<token>\[(?P<head>[^\]\s]+)[^\]]*\])(?P<text>.*)$`.
Returns (token, head, text). -/
def rxSingleBracketTok (s : String) : Option (String × String × String) :=
  match s.data with
  | '[' :: r =>
    let hd := r.takeWhile (fun c => c ≠ ']' && !pyIsSpace c)
    if hd.length = 0 then none else
    let r2 := r.drop hd.length
    let tl := r2.takeWhile (· ≠ ']')
    match r2.drop tl.length with
    | ']' :: rest =>
      some (String.mk ('[' :: (hd ++ tl ++ [']'])), String.mk hd,
            String.mk rest)
    | _ => none
  | _ => none

/-- `RX_COLOR_HEAD = ^(?P<token>##[a-zA-Z][a-zA-Z0-9 ]*\|)(?P<text>.*)$`. -/
def rxColorHeadTok (s : String) : Option (String × String) :=
  let d := s.data
  if d.take 2 = "##".data then
    match d.drop 2 with
    | c :: r =>
      if c.isAlpha then
        let run := r.takeWhile (fun x => x.isAlpha || x.isDigit || x = ' ')
        match r.drop run.length with
        | '|' :: rest =>
          some (String.mk ('#' :: '#' :: c :: (run ++ ['|'])), String.mk rest)
        | _ => none
      else none
    | [] => none
  else none

/-- `RX_LEAD_WHITESPACE = ^(?P<token>\s+)(?P<text>.*)$`. -/
def rxLeadWhitespaceTok (s : String) : Option (String × String) :=
  let run := s.data.takeWhile pyIsSpace
  if run.length = 0 then none
  else some (String.mk run, String.mk (s.data.drop run.length))

/-- Alternatives of `RX_DOUBLED_CHAR` (anchored two-character markers). -/
def doubledPairs : List String :=
  ["//", "**", "\x7b\x7b", "\x7d\x7d", "--", "__", ",,", "^^", "||"]

/-- `RX_DOUBLED_CHAR = ^(//|\*\*|\{\{|\}\}|--|__|,,|\^\^|\|\|)`. -/
def rxDoubledChar (s : String) : Bool :=
  doubledPairs.any (fun p => sw s p)

/-- `RX_ESCAPE_CHAR.search(text)`: the pattern `@|<|>` is unanchored, so it
succeeds whenever any of the three characters occurs anywhere in `text`
(the branch then emits only `text[0:1]`). -/
def hasEscapeChar (d : List Char) : Bool :=
  d.any (fun c => c = '@' || c = '<' || c = '>')

/-- `RX_WHITESPACE.match(token)`: `(\s+)` anchored at the start. -/
def rxWhitespaceMatch (s : String) : Bool :=
  match s.data with
  | c :: _ => pyIsSpace c
  | [] => false

/-! ## `str_lex`

State of the Python loop: `pfxVar` is the `prefix` variable (only written by
the fall-through accumulation and cleared by the flushing branches), while
`sinceReset` is `prefix_and_text[0:text_i]`, the run of characters consumed
by fall-through since the last rule match.  Non-flushing branches
(`[!--`, `--]`, the escape-character branch, the URL branch) reset
`sinceReset` without touching `pfxVar`, which reproduces the source's stale
`prefix` behaviour.  Both lists are kept reversed. -/

def flushPfx (pfxVar : List Char) (acc : List String) : List String :=
  if pfxVar.isEmpty then acc else String.mk pfxVar.reverse :: acc

def strLexGo : Nat → List Char → List Char → List Char → List String →
    List String
  | 0, pfxVar, _, _, acc => (flushPfx pfxVar acc).reverse
  | _ + 1, pfxVar, _, [], acc => (flushPfx pfxVar acc).reverse
  | fuel + 1, pfxVar, sinceReset, text, acc =>
    let s := String.mk text
    let bracketTry : Option (List String × List Char) :=
      if text.headD ' ' = '[' then
        if text.take 4 = "[!--".data then
          some ("[!--" :: acc, text.drop 4)
        else
          match rxTripleBracketTok s with
          | some (tok, rest) => some (tok :: flushPfx pfxVar acc, rest.data)
          | none =>
            match rxDoubleBracketTok s with
            | some (tok, rest) => some (tok :: flushPfx pfxVar acc, rest.data)
            | none =>
              match rxSingleBracketTok s with
              | some (tok, hd, rest) =>
                if (rxURL hd).isSome || rxURLFragment hd then
                  some (tok :: flushPfx pfxVar acc, rest.data)
                else none
              | none => none
      else none
    match bracketTry with
    | some (acc2, rest) =>
      -- the `[!--` branch keeps pfxVar, the others have flushed it; in
      -- either case the Python `prefix` variable equals the old value for
      -- `[!--` and '' for the flushing ones
      if text.take 4 = "[!--".data && text.headD ' ' = '[' then
        strLexGo fuel pfxVar [] rest acc2
      else
        strLexGo fuel [] [] rest acc2
    | none =>
      if text.take 2 = "##".data then
        let acc2 := flushPfx pfxVar acc
        match rxColorHeadTok s with
        | some (tok, rest) => strLexGo fuel [] [] rest.data (tok :: acc2)
        | none => strLexGo fuel [] [] (text.drop 2) ("##" :: acc2)
      else
        match rxLeadWhitespaceTok s with
        | some (tok, rest) =>
          strLexGo fuel [] [] rest.data (tok :: flushPfx pfxVar acc)
        | none =>
          if text.take 3 = "--]".data then
            strLexGo fuel pfxVar [] (text.drop 3) ("--]" :: acc)
          else if hasEscapeChar text then
            strLexGo fuel pfxVar [] (text.drop 1)
              (String.mk (text.take 1) :: acc)
          else if rxDoubledChar s then
            strLexGo fuel [] [] (text.drop 2)
              (String.mk (text.take 2) :: flushPfx pfxVar acc)
          else
            match
              (if text.take 4 = "http".data then rxURL s else none) with
            | some (tok, rest) =>
              strLexGo fuel pfxVar [] rest.data (tok :: acc)
            | none =>
              match text with
              | c :: rest =>
                strLexGo fuel (c :: sinceReset) (c :: sinceReset) rest acc
              | [] => (flushPfx pfxVar acc).reverse

/-- `str_lex(text)`. -/
def strLex (text : String) : List String :=
  strLexGo (text.length + 1) [] [] text.data []

/-! ## `token_lex` -/

inductive Tok where
  | str (s : String)
  | litStart
  | litEnd
  | entStart
  | entEnd
  deriving Repr, DecidableEq, Inhabited

/-- `count_literal_escapes`. -/
def countLiteralEscapes (toks : List String) : Nat :=
  (toks.foldl
    (fun (st : String × Nat) s =>
      if st.1 ++ s = "@@" then ("", st.2 + 1) else (s, st.2))
    ("", 0)).2

structure TLState where
  lastIdx : Option Nat
  lastHtmlIdx : Option Nat
  prevS : String
  toks : Array Tok
  remaining : Int

def tokenLexStep (st : TLState) (s : String) : TLState :=
  if st.prevS ++ s = "@@" ∧ st.lastIdx.isSome then
    let i := st.lastIdx.getD 0
    { st with
      remaining := st.remaining - 1
      toks := (st.toks.push .litEnd).set! i .litStart
      lastIdx := none
      prevS := "" }
  else if st.prevS ++ s = "@@" ∧ st.remaining > 1 then
    let toks := st.toks.push (.str "@@")
    { st with
      remaining := st.remaining - 1
      toks := toks
      lastIdx := some (toks.size - 1)
      prevS := "" }
  else if st.prevS ++ s = "@<" then
    let toks := st.toks.push (.str "@<")
    { st with
      toks := toks
      lastHtmlIdx :=
        if st.lastHtmlIdx.isNone then some (toks.size - 1)
        else st.lastHtmlIdx
      prevS := "" }
  else if st.prevS ++ s = ">@" then
    match st.lastHtmlIdx with
    | some j =>
      { st with
        toks := (st.toks.set! j .entStart).push .entEnd
        lastHtmlIdx := none
        prevS := "" }
    | none =>
      { st with toks := st.toks.push (.str ">"), prevS := "@" }
  else if s = "@" ∨ s = ">" then
    { st with
      toks := if st.prevS ≠ "" then st.toks.push (.str st.prevS) else st.toks
      prevS := s }
  else
    { st with
      toks :=
        (if st.prevS ≠ "" then st.toks.push (.str st.prevS) else st.toks).push
          (.str s)
      prevS := "" }

/-- `token_lex(text)`: a trailing pending `@` or `>` in `prev_s` is dropped,
exactly as in the source (the loop ends without flushing it). -/
def tokenLex (text : String) : List Tok :=
  let strToks := strLex text
  let st0 : TLState :=
    { lastIdx := none, lastHtmlIdx := none, prevS := "", toks := #[]
      remaining := (countLiteralEscapes strToks : Int) }
  (strToks.foldl tokenLexStep st0).toks.toList

/-! ## Node tree (`Node`, `Text` and their subclasses) -/

/-- Conversion configuration (`Wikidot.__init__` from `args`). -/
structure Config where
  imagePre : String
  linkPre : String
  linkSuf : String
  deriving Repr, DecidableEq

/-- The classes of the `Node` hierarchy (`type(nd)` in the source). -/
inductive NKind where
  | base
  | italic
  | bold
  | fixedWidth
  | strikeThru
  | underline
  | subscript
  | superscript
  | span
  | color
  | size
  | literal
  | entLiteral
  deriving Repr, DecidableEq

/-- Closure state of a node: the `closure` attribute is `CLOSED_NODE`, a
link to a later node installed by `set_closure(new_nd)`, or (absent from
the map) the initial `OPEN_NODE`. -/
inductive CVal where
  | closedC
  | link (target : Nat)
  deriving Repr, DecidableEq

mutual
/-- A rendered-tree child: a plain string (`add_text` of a `str`), a `Node`
with its identity for closure lookup, or one of the `Text` leaf classes. -/
inductive Child where
  | text (s : String)
  | node (kind : NKind) (rawTag openTag closeTag : String) (id : Nat)
      (children : Children)
  | linkLeaf (openTag content : String)
  | anchorLeaf (openTag : String)
  | imageLeaf (raw src : String) (attrs : List (String × String))
      (alignment : String)
  | lineBreak
  deriving Repr, DecidableEq
inductive Children where
  | nil
  | cons (c : Child) (cs : Children)
  deriving Repr, DecidableEq
end

def Children.ofList : List Child → Children
  | [] => .nil
  | c :: cs => .cons c (Children.ofList cs)

def lookupClos (m : List (Nat × CVal)) (i : Nat) : Option CVal :=
  (m.find? (fun kv => kv.1 = i)).map (fun kv => kv.2)

/-- `closed()`: chase `set_closure` links down to a `ClosureNode`.  Links
always point to nodes created later, so `m.length + 1` steps suffice. -/
def resolveClosed (m : List (Nat × CVal)) : Nat → Nat → Bool
  | 0, _ => false
  | fuel + 1, i =>
    match lookupClos m i with
    | none => false
    | some .closedC => true
    | some (.link j) => resolveClosed m fuel j

/-- `Image.ATTRS`. -/
def imageATTRS : List String :=
  ["title", "width", "height", "style", "class", "size"]

/-- `Image.__str__` (the `class` attribute is emitted twice when set, as in
the source: once by the allow-list loop and once by the default lookup). -/
def renderImage (cfg : Config) (src : String)
    (attrs : List (String × String)) (alignment : String) : String :=
  let get := fun (k : String) =>
    (attrs.find? (fun kv => kv.1 = k)).map (fun kv => kv.2)
  let base := "<img src=\"" ++ cfg.imagePre ++ src ++ "\""
  let withAttrs := imageATTRS.foldl
    (fun acc k =>
      match get k with
      | some v => if v ≠ "" then acc ++ " " ++ k ++ "=\"" ++ v ++ "\"" else acc
      | none => acc) base
  let altV := (get "alt").getD src
  let s1 := withAttrs ++ " alt=\"" ++ altV ++ "\""
  let classV := (get "class").getD "image"
  let s2 := s1 ++ " class=\"" ++ classV ++ "\" />"
  let s3 :=
    match get "link" with
    | some l => if l ≠ "" then "<a href=\"" ++ l ++ "\">" ++ s2 ++ "</a>" else s2
    | none => s2
  if alignment = "=" then
    "<div class=\"image-container aligncenter\">" ++ s3 ++ "</div>"
  else s3

/-- Whether a child is the plain string `' '` (the `children[0] == ' '`
test of `Node.__str__`; object children never equal a string). -/
def isSpaceChild : Child → Bool
  | .text s => s = " "
  | _ => false

mutual
/-- `__str__` of the node/leaf classes, dispatching on the class. -/
def renderChild (cfg : Config) (m : List (Nat × CVal)) : Child → String
  | .text s => s
  | .lineBreak => "<br />\n"
  | .linkLeaf openTag content =>
    "<" ++ openTag ++ ">" ++ content ++ "</a>"
  | .anchorLeaf openTag => "<" ++ openTag ++ "></a>"
  | .imageLeaf _ src attrs alignment => renderImage cfg src attrs alignment
  | .node kind rawTag openTag closeTag id cs =>
    if kind = .span then
      "<" ++ openTag ++ ">" ++ pyRstrip (renderChildren cfg m cs) ++ "</span>"
    else if kind = .literal || kind = .entLiteral then
      "<" ++ openTag ++ ">" ++ subSpaces (renderChildren cfg m cs) ++ "</" ++
        closeTag ++ ">"
    else
      let fr := nodeFirstRest cfg m cs
      if resolveClosed m (m.length + 1) id then
        if fr.2 ≠ "" then
          fr.1 ++ "<" ++ openTag ++ ">" ++ fr.2 ++ "</" ++ closeTag ++ ">"
        else fr.1
      else fr.1 ++ rawTag ++ fr.2

def renderChildren (cfg : Config) (m : List (Nat × CVal)) : Children → String
  | .nil => ""
  | .cons c cs => renderChild cfg m c ++ renderChildren cfg m cs

/-- The `first`/`rest` computation of `Node.__str__`: a leading `' '` child
is hoisted out in front of the markup. -/
def nodeFirstRest (cfg : Config) (m : List (Nat × CVal)) :
    Children → String × String
  | .nil => ("", "")
  | .cons c0 rest =>
    if isSpaceChild c0 then (" ", renderChildren cfg m rest)
    else ("", renderChild cfg m c0 ++ renderChildren cfg m rest)
end

/-- `RX_FULL_URL = ^(?P<scheme>[a-z]+):(?P<rest>.*)$` as a test. -/
def rxFullURL (s : String) : Bool :=
  let run := s.data.takeWhile (fun c => 'a' ≤ c && c ≤ 'z')
  run.length > 0 && (s.data.drop run.length).headD ' ' = ':'

/-- `Link.__init__`: relative targets are rewritten with the configured
link URL affixes. -/
def mkLinkOpenTag (cfg : Config) (href : String) : String :=
  let full :=
    if !rxFullURL href && !sw href "#" then
      pyRstripSlash cfg.linkPre ++ "/" ++ pyLstripSlash href ++ cfg.linkSuf
    else href
  "a href=\"" ++ full ++ "\""

/-! ## Regular expressions used while parsing tokens -/

/-- `RX_SPAN = ^\[\[span ([^\]]+)\]\]$`. -/
def rxSpanFull (t : String) : Option String :=
  let d := t.data
  if d.take 7 = "[[span ".data then
    let g := (d.drop 7).takeWhile (· ≠ ']')
    if g.length = 0 then none else
    if (d.drop 7).drop g.length = [']', ']'] then some (String.mk g) else none
  else none

/-- `RX_SIZE = ^\[\[size ([^\]]+)\]\]$`. -/
def rxSizeFull (t : String) : Option String :=
  let d := t.data
  if d.take 7 = "[[size ".data then
    let g := (d.drop 7).takeWhile (· ≠ ']')
    if g.length = 0 then none else
    if (d.drop 7).drop g.length = [']', ']'] then some (String.mk g) else none
  else none

/-- `RX_RGB = ^[a-fA-F0-9]{6}$`. -/
def rxRGB (s : String) : Bool :=
  s.length = 6 && s.data.all (fun c =>
    ('a' ≤ c && c ≤ 'f') || ('A' ≤ c && c ≤ 'F') || c.isDigit)

/-- `RX_PARSE_TRIPLE_BRACKET = ^\[\[\[(?P<href>[^|]*)(\|(?P<name>.+))?\]\]\]$`. -/
def rxParseTripleBracket (t : String) : Option (String × Option String) :=
  let d := t.data
  if d.take 3 = "[[[".data && d.length ≥ 6 &&
      d.drop (d.length - 3) = "]]]".data then
    let mid := (d.drop 3).take (d.length - 6)
    let href := mid.takeWhile (· ≠ '|')
    if href.length = mid.length then some (String.mk mid, none)
    else
      let name := mid.drop (href.length + 1)
      if name.length = 0 then none
      else some (String.mk href, some (String.mk name))
  else none

/-- `RX_PARSE_DOUBLE_BRACKET = ^\[\[#\s+(?P<anchor>.+)\]\]$`: the greedy
`\s+` backs off one character when everything up to the `]]` is blank. -/
def rxParseDoubleBracket (t : String) : Option String :=
  let d := t.data
  if d.take 3 = "[[#".data && d.length ≥ 7 &&
      d.drop (d.length - 2) = "]]".data then
    let inner := (d.drop 3).take (d.length - 5)
    if inner.length ≥ 2 && pyIsSpace (inner.headD ' ') then
      let w0 := (inner.takeWhile pyIsSpace).length
      some (String.mk (inner.drop (min w0 (inner.length - 1))))
    else none
  else none

/-- `RX_PARSE_SINGLE_BRACKET = ^\[(?P<href>\S+)\s+(?P<name>.+)\]$`. -/
def rxParseSingleBracket (t : String) : Option (String × String) :=
  let d := t.data
  if d.headD ' ' = '[' && d.length ≥ 2 && d.getLastD ' ' = ']' then
    let core := (d.drop 1).take (d.length - 2)
    let href := core.takeWhile (fun c => !pyIsSpace c)
    if href.length = 0 then none else
    let rest := core.drop href.length
    let w0 := (rest.takeWhile pyIsSpace).length
    if w0 = 0 || rest.length < 2 then none else
    some (String.mk href, String.mk (rest.drop (min w0 (rest.length - 1))))
  else none

/-- `RX_IMAGE = ^\[\[(?P<alignment>=?)image\s+(?P<src>\S+)\s*(?P<attrs>.*)\]\]$`:
the greedy `\S+` source backtracks just enough to leave the final `]]`. -/
def rxImage (t : String) : Option (String × String × String) :=
  let d := t.data
  if d.take 2 = "[[".data then
    let parsed : Option (String × List Char) :=
      if (d.drop 2).take 6 = "=image".data then some ("=", d.drop 8)
      else if (d.drop 2).take 5 = "image".data then some ("", d.drop 7)
      else none
    match parsed with
    | none => none
    | some (alignment, r1) =>
      let ws1 := r1.takeWhile pyIsSpace
      if ws1.length = 0 then none else
      let r3 := r1.drop ws1.length
      if r3.length < 2 || r3.drop (r3.length - 2) ≠ [']', ']'] then none else
      let src0 := r3.takeWhile (fun c => !pyIsSpace c)
      let srcLen := min src0.length (r3.length - 2)
      if srcLen = 0 then none else
      let r4 := r3.drop srcLen
      let ws2 := r4.takeWhile pyIsSpace
      let attrs := (r4.drop ws2.length).take (r4.length - ws2.length - 2)
      some (alignment, String.mk (r3.take srcLen), String.mk attrs)
  else none

/-- `RX_IMAGE_ATTR = ^\s*(?P<attr>[^ =]+)\s*=\s*"(?P<value>[^"]*)"\s*(?P<rest>.*)$`. -/
def rxImageAttr (s : String) : Option (String × String × String) :=
  let d := s.data.dropWhile pyIsSpace
  let attr := d.takeWhile (fun c => c ≠ ' ' && c ≠ '=')
  if attr.length = 0 then none else
  match (d.drop attr.length).dropWhile pyIsSpace with
  | '=' :: r2 =>
    match r2.dropWhile pyIsSpace with
    | '"' :: r3 =>
      let v := r3.takeWhile (· ≠ '"')
      match r3.drop v.length with
      | '"' :: r4 =>
        some (String.mk attr, String.mk v,
              String.mk (r4.dropWhile pyIsSpace))
      | _ => none
    | _ => none
  | _ => none

/-- Python dict assignment `d[k] = v` (insertion order preserved). -/
def updAssoc (d : List (String × String)) (k v : String) :
    List (String × String) :=
  if d.any (fun kv => kv.1 = k) then
    d.map (fun kv => if kv.1 = k then (k, v) else kv)
  else d ++ [(k, v)]

/-- `InlineParser.parse_image_attrs` (loop until the pattern fails). -/
def parseImageAttrsGo : Nat → String → List (String × String) →
    List (String × String)
  | 0, _, acc => acc
  | fuel + 1, attrs, acc =>
    match rxImageAttr attrs with
    | some (k, v, rest) => parseImageAttrsGo fuel rest (updAssoc acc k v)
    | none => acc

def parseImageAttrs (attrs : String) : List (String × String) :=
  parseImageAttrsGo (attrs.length + 1) attrs []

/-! ## `InlineParser` -/

/-- An open node on the parser's stack.  Children accumulate in reverse;
a node is attached to the frame below it when it is popped, which matches
the source's append-at-push followed by in-place mutation because a frame
below an open node can gain no other children while the node is open. -/
structure Frame where
  kind : NKind
  rawTag : String
  openTag : String
  closeTag : String
  id : Nat
  childrenRev : List Child
  deriving Repr, DecidableEq

def frameToChild (fr : Frame) : Child :=
  .node fr.kind fr.rawTag fr.openTag fr.closeTag fr.id
    (Children.ofList fr.childrenRev.reverse)

def topFrame0 : Frame :=
  { kind := .base, rawTag := "", openTag := "", closeTag := "", id := 0
    childrenRev := [] }

/-- `InlineParser.__init__` state (flags, node stack, closure assignments). -/
structure PState where
  italic : Bool := false
  bold : Bool := false
  escapeLiteral : Bool := false
  noEscapeLiteral : Bool := false
  fixedWidth : Bool := false
  strikeThru : Bool := false
  underline : Bool := false
  subscriptF : Bool := false
  superscriptF : Bool := false
  commentF : Bool := false
  spanDepth : Int := 0
  colorF : Bool := false
  sizeF : Bool := false
  stack : List Frame := [topFrame0]
  nextId : Nat := 1
  clos : List (Nat × CVal) := []
  deriving Repr, DecidableEq

def initParser : PState := {}

/-- `set_flag`. -/
def setFlag (σ : PState) (k : NKind) (v : Bool) : Except String PState :=
  match k with
  | .italic => .ok { σ with italic := v }
  | .bold => .ok { σ with bold := v }
  | .fixedWidth => .ok { σ with fixedWidth := v }
  | .strikeThru => .ok { σ with strikeThru := v }
  | .underline => .ok { σ with underline := v }
  | .subscript => .ok { σ with subscriptF := v }
  | .superscript => .ok { σ with superscriptF := v }
  | .literal => .ok { σ with escapeLiteral := v }
  | .entLiteral => .ok { σ with noEscapeLiteral := v }
  | .span =>
    let d := σ.spanDepth + (if v then 1 else -1)
    if d < 0 then .error "negative span depth"
    else .ok { σ with spanDepth := d }
  | .color => .ok { σ with colorF := v }
  | .size => .ok { σ with sizeF := v }
  | .base => .ok σ

/-- `add_node` (push a fresh frame and set its flag). -/
def addNode (σ : PState) (k : NKind) (raw opTag clTag : String) :
    Except String PState :=
  let fr : Frame :=
    { kind := k, rawTag := raw, openTag := opTag, closeTag := clTag
      id := σ.nextId, childrenRev := [] }
  setFlag { σ with stack := fr :: σ.stack, nextId := σ.nextId + 1 } k true

/-- `add_text` (append to the children of the stack top). -/
def addText (σ : PState) (c : Child) : Except String PState :=
  match σ.stack with
  | [] => .error "IndexError: node stack is empty"
  | fr :: rest =>
    .ok { σ with stack := { fr with childrenRev := c :: fr.childrenRev } :: rest }

/-- Pop the top frame, attaching its materialised node to the frame below. -/
def popAttach (σ : PState) : Except String (PState × Frame) :=
  match σ.stack with
  | [] => .error "IndexError: pop from empty node stack"
  | fr :: rest =>
    let rest2 :=
      match rest with
      | below :: more =>
        { below with childrenRev := frameToChild fr :: below.childrenRev } :: more
      | [] => []
    .ok ({ σ with stack := rest2 }, fr)

/-- `remove_nodes_to_class`: pop (and unflag) until a frame of class `cls`
comes off; the popped frames are returned in pop order (innermost first). -/
def removeNodesToClass (cls : NKind) :
    Nat → PState → List Frame → Except String (PState × List Frame)
  | 0, _, _ => .error "not on stack"
  | fuel + 1, σ, accRev =>
    match σ.stack with
    | [] => .error "not on stack"
    | _ :: _ =>
      match popAttach σ with
      | .error e => .error e
      | .ok (σ2, fr) =>
        match setFlag σ2 fr.kind false with
        | .error e => .error e
        | .ok σ3 =>
          if fr.kind = cls then .ok (σ3, (fr :: accRev).reverse)
          else removeNodesToClass cls fuel σ3 (fr :: accRev)

/-- The default single-argument constructors available for
`type(old_nd)('')` in `restore_nodes`; `Span`, `Color`, `Size`, `Literal`
and `HTMLEntityLiteral` require extra arguments, so rebuilding one of them
raises `TypeError` in the source. -/
def defaultCtor : NKind → Option (String × String × String)
  | .italic => some ("//", "em", "em")
  | .bold => some ("**", "strong", "strong")
  | .fixedWidth => some ("\x7b\x7b", "tt", "tt")
  | .strikeThru =>
    some ("--", "span style=\"text-decoration: line-through;\"", "span")
  | .underline =>
    some ("__", "span style=\"text-decoration: underline;\"", "span")
  | .subscript => some (",,", "sub", "sub")
  | .superscript => some ("^^", "sup", "sup")
  | .base => some ("", "", "")
  | _ => none

/-- `restore_nodes`: re-push fresh nodes for the given frames (outermost
first) and link each old node's closure to its replacement. -/
def restoreNodes (σ : PState) : List Frame → Except String PState
  | [] => .ok σ
  | fr :: rest =>
    match defaultCtor fr.kind with
    | none => .error "TypeError: constructor requires arguments"
    | some (raw, opTag, clTag) =>
      let newId := σ.nextId
      match addNode σ fr.kind raw opTag clTag with
      | .error e => .error e
      | .ok σ2 =>
        restoreNodes { σ2 with clos := (fr.id, .link newId) :: σ2.clos } rest

/-- `remove_node`: pop through to `cls`, rebuild the intervening nodes, and
return the id of the popped target. -/
def removeNode (σ : PState) (cls : NKind) : Except String (PState × Nat) :=
  match removeNodesToClass cls (σ.stack.length + 1) σ [] with
  | .error e => .error e
  | .ok (σ2, removed) =>
    match removed.getLast? with
    | none => .error "not on stack"
    | some target =>
      match restoreNodes σ2 removed.dropLast.reverse with
      | .error e => .error e
      | .ok σ3 => .ok (σ3, target.id)

/-- Mark a node closed (`nd.set_closure(CLOSED_NODE)`). -/
def setClosed (σ : PState) (id : Nat) : PState :=
  { σ with clos := (id, .closedC) :: σ.clos }

/-- `remove_all_nodes`: pop everything (the full tree materialises in the
last frame popped). -/
def removeAllNodes : Nat → PState → List Frame →
    Except String (PState × List Frame)
  | 0, σ, accRev => .ok (σ, accRev.reverse)
  | fuel + 1, σ, accRev =>
    match σ.stack with
    | [] => .ok (σ, accRev.reverse)
    | _ :: _ =>
      match popAttach σ with
      | .error e => .error e
      | .ok (σ2, fr) =>
        match setFlag σ2 fr.kind false with
        | .error e => .error e
        | .ok σ3 => removeAllNodes fuel σ3 (fr :: accRev)

/-- `restore_all_nodes`: rebuild a fresh top node of the bottom frame's
class, then restore the remaining frames (outermost first). -/
def restoreAllNodes (σ : PState) (removed : List Frame) :
    Except String PState :=
  match removed.getLast? with
  | none => .error "IndexError: pop from empty list"
  | some bottom =>
    match defaultCtor bottom.kind with
    | none => .error "TypeError: constructor requires arguments"
    | some (raw, opTag, clTag) =>
      let fr : Frame :=
        { kind := bottom.kind, rawTag := raw, openTag := opTag
          closeTag := clTag, id := σ.nextId, childrenRev := [] }
      restoreNodes { σ with stack := [fr], nextId := σ.nextId + 1 }
        removed.dropLast.reverse

/-- Materialise the current tree from the stack without destroying it. -/
def materializeStackGo (fr : Frame) : List Frame → Child
  | [] => frameToChild fr
  | below :: more =>
    materializeStackGo
      { below with childrenRev := frameToChild fr :: below.childrenRev } more

/-- `str(parser.top_node)` with the current closure assignments. -/
def strTopNode (cfg : Config) (σ : PState) : String :=
  match σ.stack with
  | [] => ""
  | fr :: rest => renderChild cfg σ.clos (materializeStackGo fr rest)

/-- `RX_WHITESPACE.match(tokens[i])` where the token may be a sentinel
object, in which case `re.match` raises `TypeError`. -/
def tokWhitespace : Tok → Except String Bool
  | .str s => .ok (rxWhitespaceMatch s)
  | _ => .error "TypeError: expected string or bytes-like object"

/-- `handle_token(i, raw_tag, inside_tag, cls)`. -/
def handleToken (σ : PState) (toks : List Tok) (i : Nat) (raw : String)
    (inside : Bool) (cls : NKind) : Except String PState :=
  if inside then
    if i > 0 then
      match tokWhitespace (toks.getD (i - 1) (.str "")) with
      | .error e => .error e
      | .ok ws =>
        if !ws then
          match removeNode σ cls with
          | .error e => .error e
          | .ok (σ2, id) => .ok (setClosed σ2 id)
        else addText σ (.text raw)
    else addText σ (.text raw)
  else
    if i < toks.length - 1 then
      match tokWhitespace (toks.getD (i + 1) (.str "")) with
      | .error e => .error e
      | .ok ws =>
        if !ws then
          match defaultCtor cls with
          | some (r, o, c) => addNode σ cls r o c
          | none => .error "TypeError: constructor requires arguments"
        else addText σ (.text raw)
    else addText σ (.text raw)

/-- `parse_image`. -/
def parseImage (σ : PState) (t : String) : Except String PState :=
  match rxImage t with
  | some (alignment, src, attrs) =>
    addText σ (.imageLeaf t src (parseImageAttrs attrs) alignment)
  | none => addText σ (.text t)

/-- One iteration of `InlineParser.parse`, with the source's branch order. -/
def parseToken (cfg : Config) (toks : List Tok) (σ : PState) (i : Nat)
    (t : Tok) : Except String PState :=
  if σ.commentF then
    if t = .str "--]" then .ok { σ with commentF := false } else .ok σ
  else if t = .str "[!--" then
    .ok { σ with commentF := true }
  else if t = .litEnd ∧ σ.escapeLiteral then
    match removeNode { σ with escapeLiteral := false } .literal with
    | .error e => .error e
    | .ok (σ2, _) => .ok σ2
  else if t = .litStart then
    addNode { σ with escapeLiteral := true } .literal "@@"
      "span style=\"white-space: pre-wrap;\"" "span"
  else if t = .entEnd ∧ σ.noEscapeLiteral then
    match removeNode { σ with noEscapeLiteral := false } .entLiteral with
    | .error e => .error e
    | .ok (σ2, _) => .ok σ2
  else if t = .entEnd then
    addText σ (.text (htmlEscape ">@"))
  else if σ.escapeLiteral then
    match t with
    | .str s => addText σ (.text (htmlEscape s))
    | _ => .error "AttributeError: html.escape on a non-string token"
  else if σ.noEscapeLiteral then
    match t with
    | .str s => addText σ (.text s)
    | _ => .error "object token rendered by repr"
  else if t = .entStart then
    addNode { σ with noEscapeLiteral := true } .entLiteral "@@"
      "span style=\"white-space: pre-wrap;\"" "span"
  else
    match t with
    | .litStart | .litEnd | .entStart | .entEnd =>
      .error "expected token to be a string"
    | .str s =>
      if rxWhitespaceMatch s then addText σ (.text " ")
      else if sw s "[[span" then
        match rxSpanFull s with
        | some attrs => addNode σ .span s ("span " ++ attrs) "span"
        | none => addText σ (.text s)
      else if s = "[[/span]]" then
        if σ.spanDepth > 0 then
          match removeNode σ .span with
          | .error e => .error e
          | .ok (σ2, id) => .ok (setClosed σ2 id)
        else addText σ (.text s)
      else if sw s "[[size" then
        match rxSizeFull s with
        | some attrs =>
          addNode σ .size s ("span style=\"font-size:" ++ attrs ++ ";\"") "span"
        | none => addText σ (.text s)
      else if s = "[[/size]]" then
        if σ.sizeF then
          match removeNode σ .size with
          | .error e => .error e
          | .ok (σ2, id) => .ok (setClosed σ2 id)
        else addText σ (.text s)
      else if sw s "[[image" then parseImage σ s
      else if sw s "[[=image" then parseImage σ s
      else if sw s "[[[" then
        match rxParseTripleBracket s with
        | some (href, nameOpt) =>
          let name := match nameOpt with
            | some n => if n = "" then href else n
            | none => href
          addText σ (.linkLeaf (mkLinkOpenTag cfg href) name)
        | none => addText σ (.text s)
      else if sw s "[[" then
        match rxParseDoubleBracket s with
        | some anchor => addText σ (.anchorLeaf ("a name=\"" ++ anchor ++ "\""))
        | none => addText σ (.text s)
      else if sw s "[" then
        match rxParseSingleBracket s with
        | some (href, name) =>
          addText σ (.linkLeaf (mkLinkOpenTag cfg href) name)
        | none => addText σ (.text s)
      else if s = "##" then
        if σ.colorF then
          match removeNode σ .color with
          | .error e => .error e
          | .ok (σ2, id) => .ok (setClosed σ2 id)
        else addText σ (.text s)
      else if sw s "##" then
        if σ.colorF then .error "FIXME: nested color"
        else if ew s "|" then
          let colorName := (s.drop 2).dropRight 1
          let tag :=
            if rxRGB colorName then
              "span style=\"color: #" ++
                String.mk (colorName.data.map Char.toLower) ++ "\""
            else "span style=\"color: " ++ colorName ++ "\""
          addNode σ .color s tag "span"
        else addText σ (.text s)
      else if s = "--" then handleToken σ toks i "--" σ.strikeThru .strikeThru
      else if s = "__" then handleToken σ toks i "__" σ.underline .underline
      else if s = "//" then handleToken σ toks i "//" σ.italic .italic
      else if s = "**" then handleToken σ toks i "**" σ.bold .bold
      else if s = ",," then handleToken σ toks i ",," σ.subscriptF .subscript
      else if s = "^^" then
        handleToken σ toks i "^^" σ.superscriptF .superscript
      else if s = "\x7b\x7b" then
        if !σ.fixedWidth then
          if i < toks.length - 1 then
            match tokWhitespace (toks.getD (i + 1) (.str "")) with
            | .error e => .error e
            | .ok ws =>
              if !ws then addNode σ .fixedWidth "\x7b\x7b" "tt" "tt"
              else addText σ (.text "\x7b\x7b")
          else addText σ (.text "\x7b\x7b")
        else .ok σ
      else if s = "\x7d\x7d" then
        if σ.fixedWidth then
          if i > 0 then
            match tokWhitespace (toks.getD (i - 1) (.str "")) with
            | .error e => .error e
            | .ok ws =>
              if !ws then
                match removeNode σ .fixedWidth with
                | .error e => .error e
                | .ok (σ2, id) => .ok (setClosed σ2 id)
              else addText σ (.text "\x7d\x7d")
          else addText σ (.text "\x7d\x7d")
        else .ok σ
      else if sw s "http" then
        match rxURL s with
        | some _ => addText σ (.linkLeaf (mkLinkOpenTag cfg s) s)
        | none => addText σ (.text (htmlEscape s))
      else addText σ (.text (htmlEscape s))

/-- The loop of `InlineParser.parse`. -/
def parseGo (cfg : Config) (toks : List Tok) :
    PState → Nat → List Tok → Except String PState
  | σ, _, [] => .ok σ
  | σ, i, t :: rest =>
    match parseToken cfg toks σ i t with
    | .error e => .error e
    | .ok σ2 => parseGo cfg toks σ2 (i + 1) rest

/-- `InlineParser.parse(tokens)` (state-threading version). -/
def parseToks (cfg : Config) (σ : PState) (toks : List Tok) :
    Except String PState :=
  parseGo cfg toks σ 0 toks

/-! ## Blocks -/

def BLOCK_TYPE_CODE : String := "code"
def BLOCK_TYPE_MATH : String := "math"
def BLOCK_TYPE_P : String := "p"
def BLOCK_TYPE_UL : String := "ul"
def BLOCK_TYPE_OL : String := "ol"
def BLOCK_TYPE_TABLE : String := "table"
def BLOCK_TYPE_HN : String := "_hn"
def BLOCK_TYPE_HR : String := "hr"
def BLOCK_TYPE_EMPTY : String := "_empty"

def MULTILINE_BLOCK_TYPES : List String :=
  [BLOCK_TYPE_CODE, BLOCK_TYPE_MATH, BLOCK_TYPE_OL, BLOCK_TYPE_P,
   BLOCK_TYPE_TABLE, BLOCK_TYPE_UL]

/-- One stored `re.Match` with its captured groups, tagged by the pattern
that produced it.  Accessing a group the pattern does not define raises
`IndexError` in the source, hence the `Option`-valued accessors. -/
inductive MatchData where
  | ul (indent content : String) (br : Bool)
  | ol (indent content : String) (br : Bool)
  | hn (indent : String) (plusSigns : Nat) (content : String) (br : Bool)
  | hr (indent : String) (br : Bool)
  | table (indent content : String) (br : Bool)
  | empty (br : Bool)
  | p (content : String) (br : Bool)
  | codeStart (indent : String) (typeAttr : Option String) (content : String)
  | mathStart (indent content : String)
  | codeContent (content : String)
  | mathContent (content : String)
  deriving Repr, DecidableEq

/-- `match.group('content')`: every pattern stored in a block defines it
(for `RX_HR` and `RX_EMPTY` it is the empty constant group). -/
def MatchData.contentG : MatchData → String
  | .ul _ c _ => c
  | .ol _ c _ => c
  | .hn _ _ c _ => c
  | .hr _ _ => ""
  | .table _ c _ => c
  | .empty _ => ""
  | .p c _ => c
  | .codeStart _ _ c => c
  | .mathStart _ c => c
  | .codeContent c => c
  | .mathContent c => c

/-- `match.group('br')` truthiness (the group matched `' _'`). -/
def MatchData.brG : MatchData → Option Bool
  | .ul _ _ b => some b
  | .ol _ _ b => some b
  | .hn _ _ _ b => some b
  | .hr _ b => some b
  | .table _ _ b => some b
  | .empty b => some b
  | .p _ b => some b
  | _ => none

/-- `match.group('indent')`. -/
def MatchData.indentG : MatchData → Option String
  | .ul i _ _ => some i
  | .ol i _ _ => some i
  | .hn i _ _ _ => some i
  | .hr i _ => some i
  | .table i _ _ => some i
  | .codeStart i _ _ => some i
  | .mathStart i _ => some i
  | _ => none

/-- `match.group('raw_tag')`. -/
def MatchData.rawTagG : MatchData → Option String
  | .ul _ _ _ => some "*"
  | .ol _ _ _ => some "#"
  | .codeStart _ ty _ =>
    some ("[[code" ++ (match ty with
      | some t => " type=\"" ++ t ++ "\""
      | none => "") ++ "]]")
  | .mathStart _ _ => some "[[math]]"
  | _ => none

/-- `match.group('plus_signs')` length. -/
def MatchData.plusSignsG : MatchData → Option Nat
  | .hn _ n _ _ => some n
  | _ => none

/-- The state of one `Block` object (line numbers are omitted: they feed
only the stderr diagnostics, not the rendered output). -/
structure Blk where
  btype : String
  tag : String
  matchesL : List MatchData
  tocNumber : Nat := 0
  inputNesting : Nat := 0
  outputNesting : Nat := 0
  eqnNumber : Nat := 0
  deriving Repr, DecidableEq

/-- `analyze_line(line, current_block)` rule table (first match wins,
mirroring the sequence of `if md:` returns of the source). -/
def analyzeLine (line : String) (cur : Option Blk) :
    Except String (String × MatchData) :=
  let tryLists :=
    match cur with
    | none => true
    | some b => b.btype ≠ BLOCK_TYPE_TABLE
  let viaLists : Option (String × MatchData) :=
    if tryLists then
      match rxUL line with
      | some m => some (BLOCK_TYPE_UL, MatchData.ul m.1 m.2.1 m.2.2)
      | none =>
      match rxOL line with
      | some m => some (BLOCK_TYPE_OL, MatchData.ol m.1 m.2.1 m.2.2)
      | none =>
      match rxHN line with
      | some m => some (BLOCK_TYPE_HN, MatchData.hn m.1 m.2.1 m.2.2.1 m.2.2.2)
      | none =>
      match rxHR line with
      | some m => some (BLOCK_TYPE_HR, MatchData.hr m.1 m.2)
      | none => none
    else none
  match viaLists with
  | some r => .ok r
  | none =>
  match rxTable line with
  | some m => .ok (BLOCK_TYPE_TABLE, MatchData.table m.1 m.2.1 m.2.2)
  | none =>
  match rxEmpty line with
  | some b => .ok (BLOCK_TYPE_EMPTY, MatchData.empty b)
  | none =>
  match rxP line with
  | some m => .ok (BLOCK_TYPE_P, MatchData.p m.1 m.2)
  | none => .error ("unparseable line: " ++ line)

/-- `Block.add_line` (the driver always passes the type and match). -/
def blkAddLine (blk : Blk) (btype : String) (m : MatchData)
    (continued : Bool) : Except String Blk :=
  if !continued && btype ≠ BLOCK_TYPE_P && btype ≠ BLOCK_TYPE_EMPTY &&
      btype ≠ blk.btype then
    .error ("block type mismatch: " ++ blk.btype ++ ": " ++ btype)
  else .ok { blk with matchesL := blk.matchesL ++ [m] }

def Blk.multilineType (blk : Blk) : Bool :=
  MULTILINE_BLOCK_TYPES.contains blk.btype

/-- `Block.content()`: a fresh parser over every stored line's content. -/
def blockContent (cfg : Config) (ms : List MatchData) :
    Except String String := do
  let σ ← ms.foldlM
    (fun σ m => parseToks cfg σ (tokenLex m.contentG)) initParser
  pure (strTopNode cfg σ)

/-- `Block.write_content`: the shared parser accumulates, and the whole
top node is re-rendered and written once per stored line. -/
def writeContent (cfg : Config) (ms : List MatchData) :
    Except String (List String) := do
  let res ← ms.foldlM
    (fun (acc : PState × List String) m => do
      let σ2 ← parseToks cfg acc.1 (tokenLex m.contentG)
      pure (σ2, acc.2 ++ [strTopNode cfg σ2]))
    (initParser, [])
  pure res.2

/-- `Header.close`. -/
def closeHeader (cfg : Config) (blk : Blk) : Except String (List String) := do
  let body ← writeContent cfg blk.matchesL
  pure (["<" ++ blk.tag ++ " id=\"toc" ++ toString blk.tocNumber ++
          "\"><span>"] ++ body ++ ["</span></" ++ blk.tag ++ ">\n"])

/-- `HorizontalRule.close`. -/
def closeHR : List String := ["<hr />\n"]

/-- `Code.write_code_content`: only the first stored line is dropped when
blank; every chunk is one `write` call of the source. -/
def writeCodeContent (blk : Blk) : List String :=
  let n := blk.matchesL.length
  let body := blk.matchesL.enum.foldl
    (fun acc iv =>
      if iv.1 = 0 && rxBlankLine iv.2.contentG then acc
      else
        let acc2 := acc ++ [htmlEscape iv.2.contentG]
        if iv.1 < n - 1 then acc2 ++ ["\n"] else acc2)
    []
  List.replicate blk.outputNesting "[[code]]\n" ++ body ++
    List.replicate blk.outputNesting "\n[[/code]]"

/-- `Code.close`. -/
def closeCode (blk : Blk) : List String :=
  ["<div class=\"code\">\n", "<pre>\n", "<code>"] ++ writeCodeContent blk ++
    ["</code>\n", "</pre></div>\n"]

/-- `Math.write_math_content` (same line-dropping rule as the code block). -/
def writeMathContent (blk : Blk) : List String :=
  let n := blk.matchesL.length
  let body := blk.matchesL.enum.foldl
    (fun acc iv =>
      if iv.1 = 0 && rxBlankLine iv.2.contentG then acc
      else
        let acc2 := acc ++ [htmlEscape iv.2.contentG]
        if iv.1 < n - 1 then acc2 ++ ["\n"] else acc2)
    []
  List.replicate blk.outputNesting "[[math]]\n" ++ body ++
    List.replicate blk.outputNesting "\n[[/math]]"

/-- `Math.close`. -/
def closeMath (blk : Blk) : List String :=
  ["<span class=\"equation-number\">(" ++ toString blk.eqnNumber ++
     ")</span>\n",
   "<div class=\"math-equation\" id=\"equation-" ++ toString blk.eqnNumber ++
     "\">",
   "$$ \\begin\x7balign\x7d "] ++ writeMathContent blk ++
  [" \\end\x7balign\x7d $$", "</div>\n"]

def splitNL : List Char → List Char → List (List Char)
  | acc, [] => [acc.reverse]
  | acc, c :: rest =>
    if c = '\n' then acc.reverse :: splitNL [] rest
    else splitNL (c :: acc) rest

/-- One line fully matched by `(<br />|\s)*$`. -/
def emptyParaLine : Nat → List Char → Bool
  | 0, _ => false
  | _ + 1, [] => true
  | fuel + 1, l =>
    if l.take 6 = "<br />".data then emptyParaLine fuel (l.drop 6)
    else if pyIsSpace (l.headD '.') then emptyParaLine fuel (l.drop 1)
    else false

/-- `RX_EMPTY_PARAGRAPH.search(content)` with `re.M`: some line of the
rendered content consists only of `<br />` markers and whitespace. -/
def rxEmptyParagraph (content : String) : Bool :=
  (splitNL [] content.data).any (fun ln => emptyParaLine (ln.length + 1) ln)

def Children.toList : Children → List Child
  | .nil => []
  | .cons c cs => c :: Children.toList cs

/-- The children of `parser.top_node` as currently materialised. -/
def topNodeChild (σ : PState) : Child :=
  match σ.stack with
  | [] => .text ""
  | fr :: rest => materializeStackGo fr rest

/-- `Paragraph.get_content`: forced line break between stored lines. -/
def getParagraphContent (cfg : Config) (ms : List MatchData) :
    Except String PState :=
  ms.enum.foldlM
    (fun σ iv => do
      let σ2 ← parseToks cfg σ (tokenLex iv.2.contentG)
      if iv.1 < ms.length - 1 then addText σ2 .lineBreak else pure σ2)
    initParser

/-- `Paragraph.close`. -/
def closeParagraph (cfg : Config) (blk : Blk) :
    Except String (List String) := do
  let σ ← getParagraphContent cfg blk.matchesL
  let content := strTopNode cfg σ
  let suppress :=
    match topNodeChild σ with
    | .node _ _ _ _ _ cs =>
      match cs.toList with
      | [.imageLeaf _ _ _ _] => true
      | _ => false
    | _ => false
  if !rxEmptyParagraph content then
    if !suppress then pure ["<p>", content, "</p>\n"]
    else pure [content, "\n"]
  else pure []

/-! ## Table block -/

/-- `RX_TAGGED_CELL = ^(?P<tag>~|<|=|>)\s+(?P<content>.*)$`. -/
def rxTaggedCell (cell : String) : Option (String × String) :=
  match cell.data with
  | c :: rest =>
    if c = '~' || c = '<' || c = '=' || c = '>' then
      let ws := rest.takeWhile pyIsSpace
      if ws.length = 0 then none
      else some (String.mk [c], String.mk (rest.drop ws.length))
    else none
  | [] => none

/-- Per-`Table`-object mutable cell state. -/
structure TState where
  cellType : String := "td"
  colspan : Nat := 1
  textAlign : String := ""
  cellContent : String := ""
  parser : Option PState := none
  deriving Repr, DecidableEq

/-- `Table.analyze_cell`. -/
def analyzeCell (ts : TState) (cell : String) : TState :=
  let parsed := rxTaggedCell cell
  let tag := match parsed with | some t => t.1 | none => ""
  let content := match parsed with | some t => t.2 | none => cell
  { ts with
    cellType := if tag = "~" then "th" else "td"
    textAlign :=
      if tag = "<" then "left"
      else if tag = "=" then "center"
      else if tag = ">" then "right"
      else ""
    cellContent := content }

/-- `Table.open_cell_tag`. -/
def openCellTag (ts : TState) : String :=
  let comps := [ts.cellType] ++
    (if ts.colspan > 1 then ["colspan=\"" ++ toString ts.colspan ++ "\""]
     else []) ++
    (if ts.textAlign ≠ "" then
      ["style=\"text-align: " ++ ts.textAlign ++ ";\""] else [])
  String.intercalate " " comps

/-- `Table.start_cell`. -/
def startCell (ts : TState) : TState := { ts with parser := some initParser }

/-- `Table.add_cell_content`. -/
def tsAddContent (cfg : Config) (ts : TState) (content : String) :
    Except String TState :=
  match ts.parser with
  | none => .error "AttributeError: cell parser is None"
  | some σ =>
    (parseToks cfg σ (tokenLex content)).map
      (fun σ2 => { ts with parser := some σ2 })

/-- `Table.add_line_break`. -/
def tsAddLineBreak (ts : TState) : Except String TState :=
  match ts.parser with
  | none => .error "AttributeError: cell parser is None"
  | some σ => (addText σ .lineBreak).map (fun σ2 => { ts with parser := some σ2 })

/-- `Table.end_cell` (a single `write`, hence a single chunk). -/
def tsEndCell (cfg : Config) (ts : TState) : Except String String :=
  match ts.parser with
  | none => .error "AttributeError: cell parser is None"
  | some σ =>
    .ok ("<" ++ openCellTag ts ++ ">" ++ strTopNode cfg σ ++ "</" ++
      ts.cellType ++ ">\n")

/-- `Table.print_middle_of_cell`. -/
def printMiddleOfCell (cfg : Config) (ts : TState) (cell : String) :
    Except String TState := do
  let ts2 ← tsAddContent cfg ts cell
  tsAddLineBreak ts2

/-- `Table.print_start_of_cell`. -/
def printStartOfCell (cfg : Config) (ts : TState) (cell : String) :
    Except String TState := do
  let ts2 := startCell (analyzeCell ts cell)
  let ts3 ← tsAddContent cfg ts2 ts2.cellContent
  let ts4 ← tsAddLineBreak ts3
  pure { ts4 with colspan := 1 }

/-- `Table.print_end_of_cell`. -/
def printEndOfCell (cfg : Config) (ts : TState) (cell : String) :
    Except String (TState × String) := do
  let ts2 ← tsAddContent cfg ts cell
  let c ← tsEndCell cfg ts2
  pure (ts2, c)

/-- `Table.print_full_cell`. -/
def printFullCell (cfg : Config) (ts : TState) (cell : String) :
    Except String (TState × String) := do
  let ts2 := startCell (analyzeCell ts cell)
  let ts3 ← tsAddContent cfg ts2 ts2.cellContent
  let c ← tsEndCell cfg ts3
  pure ({ ts3 with colspan := 1 }, c)

/-- The `for cell in cells` loop of `Table.print_cells`. -/
def printCellsLoop (cfg : Config) :
    TState → List String → List String → Except String (TState × List String)
  | ts, acc, [] => .ok (ts, acc)
  | ts, acc, cell :: rest =>
    if cell = "" then
      printCellsLoop cfg { ts with colspan := ts.colspan + 1 } acc rest
    else
      match printFullCell cfg ts cell with
      | .error e => .error e
      | .ok (ts2, c) => printCellsLoop cfg ts2 (acc ++ [c]) rest

/-- `Table.print_cells`. -/
def printCells (cfg : Config) (ts : TState) (firstCell : Option String)
    (cells : List String) (lastCell : Option String)
    (loneCell : Option String) : Except String (TState × List String) := do
  let ts := { ts with colspan := 1 }
  let ts ← match loneCell with
    | some c => printMiddleOfCell cfg ts c
    | none => pure ts
  let (ts, firstChunks) ← match firstCell with
    | some c => (printEndOfCell cfg ts c).map (fun r => (r.1, [r.2]))
    | none => pure (ts, [])
  let (ts, loopChunks) ← printCellsLoop cfg ts [] cells
  let ts ← match lastCell with
    | some c => printStartOfCell cfg ts c
    | none => pure ts
  pure (ts, firstChunks ++ loopChunks)

/-- `Table.row_to_cells` (`row.split('||')`). -/
def rowSplitGo : List Char → List Char → List String
  | acc, '|' :: '|' :: rest => String.mk acc.reverse :: rowSplitGo [] rest
  | acc, c :: rest => rowSplitGo (c :: acc) rest
  | acc, [] => [String.mk acc.reverse]

def rowToCells (row : String) : List String := rowSplitGo [] row.data

/-- `RX_FULL_ROW = ^\|\|(?P<row>.*)\|\|$`. -/
def rxFullRow (content : String) : Option String :=
  let d := content.data
  if d.length ≥ 4 && d.take 2 = ['|', '|'] &&
      d.drop (d.length - 2) = ['|', '|'] then
    some (String.mk ((d.drop 2).take (d.length - 4)))
  else none

/-- `RX_START_ROW = ^\|\|(?P<row>.*)$`. -/
def rxStartRow (content : String) : Option String :=
  if content.data.take 2 = ['|', '|'] then some (content.drop 2) else none

/-- `RX_END_ROW = ^(?P<row>.*)\|\|$`. -/
def rxEndRow (content : String) : Option String :=
  let d := content.data
  if d.length ≥ 2 && d.drop (d.length - 2) = ['|', '|'] then
    some (String.mk (d.take (d.length - 2)))
  else none

/-- One iteration of the match loop in `Table.close`. -/
def tableRowStep (cfg : Config) (st : Bool × TState × List String)
    (m : MatchData) : Except String (Bool × TState × List String) := do
  let (insideCell, ts, chunks) := st
  let content := m.contentG
  match rxFullRow content with
  | some row =>
    if insideCell then .error "unterminated cell" else do
    let cells := rowToCells row
    let (ts2, cellChunks) ← printCells cfg ts none cells none none
    pure (false, ts2, chunks ++ ["<tr>\n"] ++ cellChunks ++ ["</tr>\n"])
  | none =>
  match rxStartRow content with
  | some row =>
    if insideCell then .error "unterminated cell" else do
    let cells := rowToCells row
    let lastCell := cells.getLastD ""
    let (ts2, cellChunks) ←
      printCells cfg ts none cells.dropLast (some lastCell) none
    pure (true, ts2, chunks ++ ["<tr>\n"] ++ cellChunks)
  | none =>
  match rxEndRow content with
  | some row =>
    if !insideCell then .error "not inside cell" else do
    let cells := rowToCells row
    let firstCell := cells.headD ""
    let (ts2, cellChunks) ←
      printCells cfg ts (some firstCell) (cells.drop 1) none none
    pure (false, ts2, chunks ++ cellChunks ++ ["</tr>\n"])
  | none => do
    let cells := rowToCells content
    let (ts2, cellChunks) ←
      if cells.length = 1 then
        printCells cfg ts none [] none (some (cells.getLastD ""))
      else
        printCells cfg ts (some (cells.headD ""))
          (cells.drop 1).dropLast (some (cells.getLastD "")) none
    pure (true, ts2, chunks ++ cellChunks)

/-- `Table.close`. -/
def closeTable (cfg : Config) (blk : Blk) : Except String (List String) := do
  let res ← blk.matchesL.foldlM (tableRowStep cfg) (false, {}, [])
  pure (["<table class=\"wiki-content-table\">\n"] ++ res.2.2 ++
    ["</table>\n"])

/-! ## List block -/

/-- `List.raw_tag_to_tag`. -/
def rawTagToTag (rt : String) : Except String String :=
  if rt = "*" then .ok BLOCK_TYPE_UL
  else if rt = "#" then .ok BLOCK_TYPE_OL
  else .error ("unrecognized raw tag " ++ rt)

/-- Python `range(a, b)` over integers. -/
def intRange (a b : Int) : List Int :=
  (List.range (b - a).toNat).map (fun k => a + (k : Int))

/-- State of the second loop of `List.close` (`opened_lists`,
`inside_line`, output chunks). -/
structure LState where
  openedLists : List String := []
  insideLine : List (Int × Bool) := []
  chunks : List String := []
  deriving Repr, DecidableEq

def ilGet (m : List (Int × Bool)) (k : Int) : Bool :=
  (((m.find? (fun kv => kv.1 = k)).map (fun kv => kv.2))).getD false

def ilSet (m : List (Int × Bool)) (k : Int) (v : Bool) : List (Int × Bool) :=
  (k, v) :: m

/-- `List.close_line`. -/
def lCloseLine (ls : LState) (indent : Int) : LState :=
  { ls with chunks := ls.chunks ++ ["</li>\n"]
            insideLine := ilSet ls.insideLine indent false }

/-- `List.open_line`. -/
def lOpenLine (ls : LState) (indent : Int) : LState :=
  let ls := if ilGet ls.insideLine indent then lCloseLine ls indent else ls
  { ls with chunks := ls.chunks ++ ["<li>"]
            insideLine := ilSet ls.insideLine indent true }

/-- `List.close_list`. -/
def lCloseList (ls : LState) (indent : Int) : Except String LState :=
  let ls := if ilGet ls.insideLine indent then lCloseLine ls indent else ls
  match ls.openedLists with
  | [] => .error "IndexError: pop from empty list"
  | tag :: rest =>
    .ok { ls with openedLists := rest
                  chunks := ls.chunks ++ ["</" ++ tag ++ ">\n"] }

/-- `List.open_list`. -/
def lOpenList (ls : LState) (tag : String) (indent : Int) : LState :=
  let ls :=
    if ilGet ls.insideLine (indent - 1) then
      { ls with chunks := ls.chunks ++ ["\n"] }
    else if indent > 0 then
      let ls := lOpenLine ls (indent - 1)
      { ls with chunks := ls.chunks ++ ["\n"] }
    else ls
  { ls with chunks := ls.chunks ++ ["<" ++ tag ++ ">\n"]
            openedLists := tag :: ls.openedLists }

/-- The first loop of `List.close`: gather one
(materialised node, tag, indent) triple per item. -/
def listGatherGo (cfg : Config) :
    PState → Option (String × Int) → List (Child × String × Int) →
    List MatchData → Except String (PState × List (Child × String × Int))
  | σ, _, acc, [] => .ok (σ, acc)
  | σ, trip, acc, m :: rest => do
    let trip2 ← match trip with
      | some t => pure t
      | none => do
        let rt ← match m.rawTagG with
          | some rt => pure rt
          | none => .error "IndexError: no such group"
        let tg ← rawTagToTag rt
        let ind ← match m.indentG with
          | some i => pure i
          | none => .error "IndexError: no such group"
        pure (tg, (ind.length : Int))
    let σ2 ← parseToks cfg σ (tokenLex m.contentG)
    let br ← match m.brG with
      | some b => pure b
      | none => .error "IndexError: no such group"
    if br then do
      let σ3 ← addText σ2 .lineBreak
      listGatherGo cfg σ3 (some trip2) acc rest
    else do
      let node := topNodeChild σ2
      let (σ4, removed) ← removeAllNodes (σ2.stack.length + 1) σ2 []
      let σ5 ← restoreAllNodes σ4 removed
      listGatherGo cfg σ5 none (acc ++ [(node, trip2)]) rest

/-- The second loop of `List.close`: emit nested list markup. -/
def listWriteGo (cfg : Config) (clos : List (Nat × CVal)) :
    LState → Int → List (Child × String × Int) → Except String (LState × Int)
  | ls, lastIndent, [] => .ok (ls, lastIndent)
  | ls, lastIndent, (node, tag, indent) :: rest => do
    let ls ← (intRange indent lastIndent).foldlM
      (fun ls i => lCloseList ls (i + 1)) ls
    let ls := (intRange lastIndent indent).foldl
      (fun ls i => lOpenList ls tag (i + 1)) ls
    let ls := lOpenLine ls indent
    let ls := { ls with chunks := ls.chunks ++ [renderChild cfg clos node] }
    listWriteGo cfg clos ls indent rest

/-- `List.close`. -/
def closeList (cfg : Config) (blk : Blk) : Except String (List String) := do
  let (σ, items) ← listGatherGo cfg initParser none [] blk.matchesL
  let (ls, lastIndent) ← listWriteGo cfg σ.clos {} (-1) items
  let ls ← (intRange (-1) lastIndent).foldlM
    (fun ls i => lCloseList ls (i + 1)) ls
  pure ls.chunks

/-! ## TOC and Div -/

structure TocHeader where
  n : Nat
  tocNumber : Nat
  text : String
  deriving Repr, DecidableEq

/-- `TOC.close` (one chunk per `write`). -/
def tocClose (headers : List TocHeader) : List String :=
  ["<div id=\"toc\">\n",
   "<div class=\"title\">Table of Contents</div>\n",
   "<div id=\"toc-list\">\n"] ++
  (headers.foldl (fun acc h => acc ++
    ["<div style=\"margin-left: " ++ toString (h.n + 1) ++ "em;\">\n",
     "<a href=\"#toc" ++ toString h.tocNumber ++ "\">" ++ h.text ++ "</a>\n",
     "</div>\n"]) []) ++
  ["</div>\n", "</div>\n"]

/-- `RX_DIV_ATTR = ^\s*(?P<name>[a-z0-9-]+)="(?P<value>.*?)"(?P<rest>.*)$`. -/
def rxDivAttr (s : String) : Option (String × String × String) :=
  let d := s.data.dropWhile pyIsSpace
  let nm := d.takeWhile (fun c =>
    ('a' ≤ c && c ≤ 'z') || c.isDigit || c = '-')
  if nm.length = 0 then none else
  match d.drop nm.length with
  | '=' :: '"' :: r2 =>
    let v := r2.takeWhile (· ≠ '"')
    match r2.drop v.length with
    | '"' :: r3 => some (String.mk nm, String.mk v, String.mk r3)
    | _ => none
  | _ => none

/-- `Div.parse_attributes` (the `id` value gets the `u-` namespace). -/
def parseDivAttrsGo : Nat → String → List (String × String) →
    List (String × String)
  | 0, _, acc => acc
  | fuel + 1, rest, acc =>
    if rest = "" then acc
    else
      match rxDivAttr rest with
      | some (nm, v, r) =>
        parseDivAttrsGo fuel r
          (updAssoc acc nm (if nm = "id" then "u-" ++ v else v))
      | none => acc

def parseDivAttrs (attrs : String) : List (String × String) :=
  parseDivAttrsGo (attrs.length + 1) attrs []

/-- Insertion sort matching Python `sorted` on strings. -/
def insertSorted (x : String) : List String → List String
  | [] => [x]
  | y :: ys => if x ≤ y then x :: y :: ys else y :: insertSorted x ys

def sortStrings (l : List String) : List String := l.foldr insertSorted []

/-- `Div.attributes_to_str`. -/
def divAttrsToStr (attrs : List (String × String)) : String :=
  let get := fun (k : String) =>
    (attrs.find? (fun kv => kv.1 = k)).map (fun kv => kv.2)
  let fixed := ["id", "class", "style"].foldl
    (fun acc k => match get k with
      | some v => acc ++ [k ++ "=\"" ++ v ++ "\""]
      | none => acc) []
  let dataAttrs := (sortStrings (attrs.map (fun kv => kv.1))).foldl
    (fun acc k =>
      if sw k "data-" then
        match get k with
        | some v => acc ++ [k ++ "=\"" ++ v ++ "\""]
        | none => acc
      else acc) []
  String.intercalate " " (fixed ++ dataAttrs)

/-- `Div.__init__` writes the opening tag immediately. -/
def divOpenChunk (attrs : List (String × String)) : String :=
  let s := divAttrsToStr attrs
  if s ≠ "" then "<div " ++ s ++ ">\n" else "<div>\n"

/-! ## Document driver (`BlockParser`) -/

/-- `Wikidot` counters and the header registry of `wikidot.toc`. -/
structure WState where
  nextTocNumber : Nat := 0
  nextEqnNumber : Nat := 1
  tocHeaders : List TocHeader := []
  deriving Repr, DecidableEq

/-- `BlockParser` state. -/
structure BPState where
  current : Option Blk := none
  bqLevel : Nat := 0
  continuedLine : Bool := false
  divs : List (List (String × String)) := []
  toc : Option (List TocHeader) := none
  w : WState := {}
  deriving Repr, DecidableEq

/-- The output stream: the chunks passed to `write`, plus counters for the
two tag writes inside `adjust_blockquote_level` (instrumentation only:
`chunks` is not affected by the counters). -/
structure Out where
  chunks : List String := []
  bqOpens : Nat := 0
  bqCloses : Nat := 0
  deriving Repr, DecidableEq

def Out.app (o : Out) (cs : List String) : Out :=
  { o with chunks := o.chunks ++ cs }

/-- Dispatch of `close` over the `Block` subclasses (keyed by the block
type the factory used to pick the class). -/
def blockCloseChunks (cfg : Config) (blk : Blk) : Except String (List String) :=
  if blk.btype = BLOCK_TYPE_UL || blk.btype = BLOCK_TYPE_OL then
    closeList cfg blk
  else if blk.btype = BLOCK_TYPE_EMPTY then .ok []
  else if blk.btype = BLOCK_TYPE_HR then .ok closeHR
  else if blk.btype = BLOCK_TYPE_CODE then .ok (closeCode blk)
  else if blk.btype = BLOCK_TYPE_MATH then .ok (closeMath blk)
  else if blk.btype = BLOCK_TYPE_P then closeParagraph cfg blk
  else if blk.btype = BLOCK_TYPE_HN then closeHeader cfg blk
  else if blk.btype = BLOCK_TYPE_TABLE then closeTable cfg blk
  else do
    -- base `Block.close` (not reachable through the factory's types)
    let body ← writeContent cfg blk.matchesL
    pure (["<" ++ blk.tag ++ ">"] ++ body ++ ["</" ++ blk.tag ++ ">\n"])

/-- `BlockParser.close_current_block`. -/
def closeCurrentBlock (cfg : Config) (σ : BPState) :
    Except String (BPState × List String) :=
  match σ.current with
  | none => .ok ({ σ with current := none }, [])
  | some b =>
    (blockCloseChunks cfg b).map (fun cs => ({ σ with current := none }, cs))

/-- `BlockParser.block_factory`. -/
def blockFactory (cfg : Config) (w : WState) (btype : String)
    (m : MatchData) : Except String (Blk × WState) :=
  if btype = BLOCK_TYPE_UL || btype = BLOCK_TYPE_OL then do
    let rt ← match m.rawTagG with
      | some rt => pure rt
      | none => .error "IndexError: no such group"
    let tg ← rawTagToTag rt
    pure ({ btype := tg, tag := tg, matchesL := [m] }, w)
  else if btype = BLOCK_TYPE_MATH then
    pure ({ btype := btype, tag := btype, matchesL := [m]
            eqnNumber := w.nextEqnNumber },
          { w with nextEqnNumber := w.nextEqnNumber + 1 })
  else if btype = BLOCK_TYPE_HN then do
    let n ← match m.plusSignsG with
      | some n => pure n
      | none => .error "IndexError: no such group"
    let text ← blockContent cfg [m]
    pure ({ btype := btype, tag := "h" ++ toString n, matchesL := [m]
            tocNumber := w.nextTocNumber },
          { w with nextTocNumber := w.nextTocNumber + 1
                   tocHeaders := w.tocHeaders ++
                     [{ n := n, tocNumber := w.nextTocNumber, text := text }] })
  else
    pure ({ btype := btype, tag := btype, matchesL := [m] }, w)

/-- Whether the current block is a `Code` instance. -/
def curIsCode (σ : BPState) : Bool :=
  match σ.current with
  | some b => b.btype = BLOCK_TYPE_CODE
  | none => false

/-- Whether the current block is a `Math` instance. -/
def curIsMath (σ : BPState) : Bool :=
  match σ.current with
  | some b => b.btype = BLOCK_TYPE_MATH
  | none => false

/-- `BlockParser.adjust_blockquote_level`: returns the (possibly
quote-stripped) line; emits close-block chunks and the blockquote tag
delta. -/
def adjustBq (cfg : Config) (σ : BPState) (out : Out) (line : String) :
    Except String (String × BPState × Out) :=
  if curIsCode σ then .ok (line, σ, out)
  else
    let stripped :=
      match rxBlockquote line with
      | some (n, content, _) => (n, content)
      | none => (0, line)
    let newLvl := stripped.1
    do
      let (σ2, cs) ←
        if newLvl ≠ σ.bqLevel then closeCurrentBlock cfg σ else pure (σ, [])
      let out2 := out.app cs
      let out3 :=
        if newLvl > σ.bqLevel then
          { out2 with
            chunks := out2.chunks ++
              List.replicate (newLvl - σ.bqLevel) "<blockquote>\n"
            bqOpens := out2.bqOpens + (newLvl - σ.bqLevel) }
        else if newLvl < σ.bqLevel then
          { out2 with
            chunks := out2.chunks ++
              List.replicate (σ.bqLevel - newLvl) "</blockquote>\n"
            bqCloses := out2.bqCloses + (σ.bqLevel - newLvl) }
        else out2
      pure (stripped.2, { σ2 with bqLevel := newLvl }, out3)

/-- `BlockParser.check_for_div`: `some` means the line was consumed. -/
def checkForDiv (cfg : Config) (σ : BPState) (line : String) :
    Except String (Option (BPState × List String)) :=
  match rxDivStart line with
  | some attrsStr => do
    let (σ2, cs) ← closeCurrentBlock cfg σ
    let attrs := parseDivAttrs attrsStr
    pure (some ({ σ2 with divs := σ2.divs ++ [attrs] },
                cs ++ [divOpenChunk attrs]))
  | none =>
    if rxDivEnd line then do
      let (σ2, cs) ← closeCurrentBlock cfg σ
      if σ2.divs.isEmpty then pure (some (σ2, cs))
      else
        pure (some ({ σ2 with divs := σ2.divs.dropLast },
                    cs ++ ["</div>\n"]))
    else pure none

/-- `BlockParser.block_type_and_match`: `none` as the first component
means the line was consumed by fence bookkeeping. -/
def blockTypeAndMatch (cfg : Config) (σ : BPState) (line : String) :
    Except String (Option (String × MatchData) × BPState × List String) :=
  if curIsCode σ then
    match rxCodeStart line with
    | some _ =>
      .ok (none,
        { σ with current := σ.current.map (fun b =>
            { b with inputNesting := b.inputNesting + 1
                     outputNesting := b.outputNesting + 1 }) }, [])
    | none =>
      if rxCodeEnd line then
        match σ.current with
        | some b =>
          if b.inputNesting = 0 then
            (closeCurrentBlock cfg σ).map (fun r => (none, r.1, r.2))
          else
            let b2 := { b with inputNesting := b.inputNesting - 1 }
            .ok (none, { σ with current := some b2 }, [])
        | none => .ok (none, σ, [])
      else
        match rxContentLine line with
        | some c => .ok (some (BLOCK_TYPE_CODE, .codeContent c), σ, [])
        | none => .error ("unparseable line: " ++ line)
  else if curIsMath σ then
    match rxMathStart line with
    | some _ =>
      .ok (none,
        { σ with current := σ.current.map (fun b =>
            { b with inputNesting := b.inputNesting + 1
                     outputNesting := b.outputNesting + 1 }) }, [])
    | none =>
      if rxMathEnd line then
        match σ.current with
        | some b =>
          if b.inputNesting = 0 then
            (closeCurrentBlock cfg σ).map (fun r => (none, r.1, r.2))
          else
            let b2 := { b with inputNesting := b.inputNesting - 1 }
            .ok (none, { σ with current := some b2 }, [])
        | none => .ok (none, σ, [])
      else
        match rxContentLine line with
        | some c => .ok (some (BLOCK_TYPE_MATH, .mathContent c), σ, [])
        | none => .error ("unparseable line: " ++ line)
  else if σ.bqLevel = 0 then
    match rxCodeStart line with
    | some (i, ty, c) =>
      (closeCurrentBlock cfg σ).map (fun r =>
        (some (BLOCK_TYPE_CODE, .codeStart i ty c), r.1, r.2))
    | none =>
      match rxMathStart line with
      | some (i, c) =>
        (closeCurrentBlock cfg σ).map (fun r =>
          (some (BLOCK_TYPE_MATH, .mathStart i c), r.1, r.2))
      | none =>
        (analyzeLine line σ.current).map (fun r => (some r, σ, []))
  else
    (analyzeLine line σ.current).map (fun r => (some r, σ, []))

def TOC_LITERAL : String := "[[toc]]"

/-- The block-accumulation step of `_process_lines`: start a block, append
to the current one (forced when `continued_line` is set), or close it and
start a new one. -/
def driverAccumulate (cfg : Config) (σ : BPState) (btype : String)
    (m : MatchData) : Except String (BPState × List String) :=
  match σ.current with
  | none => do
    let (blk, w2) ← blockFactory cfg σ.w btype m
    pure ({ σ with current := some blk, w := w2 }, ([] : List String))
  | some cur =>
    if σ.continuedLine then do
      let blk ← blkAddLine cur btype m true
      pure ({ σ with current := some blk }, ([] : List String))
    else if btype = cur.btype ∧ cur.multilineType then do
      let blk ← blkAddLine cur btype m false
      pure ({ σ with current := some blk }, ([] : List String))
    else do
      let (σ4, cs3) ← closeCurrentBlock cfg σ
      let (blk, w2) ← blockFactory cfg σ4.w btype m
      pure ({ σ4 with current := some blk, w := w2 }, cs3)

/-- The body of `_process_lines` after the blockquote adjustment; `none`
continuation paths leave `continued_line` untouched, exactly as the
source's `continue` statements skip the final assignment. -/
def processAfterAdjust (cfg : Config) (σ : BPState) (line : String) :
    Except String (BPState × List String) := do
  if line = TOC_LITERAL ∧ σ.toc.isSome then
    pure (σ, tocClose (σ.toc.getD []))
  else
    match ← checkForDiv cfg σ line with
    | some res => pure res
    | none => do
      let (btm, σ2, cs) ← blockTypeAndMatch cfg σ line
      match btm with
      | none => pure (σ2, cs)
      | some (btype, m) =>
        if btype = BLOCK_TYPE_EMPTY ∧ σ2.bqLevel > 0 then pure (σ2, cs)
        else do
          let (σ3, cs2) ← driverAccumulate cfg σ2 btype m
          pure ({ σ3 with continuedLine := ew line " _" }, cs ++ cs2)

/-- One iteration of the `for lineno, line in enumerate(...)` loop. -/
def processLine (cfg : Config) (σ : BPState) (out : Out) (raw : String) :
    Except String (BPState × Out) := do
  let line0 := pyRstrip raw
  let (line, σ1, out1) ← adjustBq cfg σ out line0
  let (σ2, cs) ← processAfterAdjust cfg σ1 line
  pure (σ2, out1.app cs)

def processLinesGo (cfg : Config) :
    BPState → Out → List String → Except String (BPState × Out)
  | σ, out, [] => .ok (σ, out)
  | σ, out, l :: rest => do
    let (σ2, out2) ← processLine cfg σ out l
    processLinesGo cfg σ2 out2 rest

/-- `BlockParser._process_lines`: the loop, the final close, and the
end-of-input blockquote adjustment against the empty line. -/
def processLinesOnce (cfg : Config) (σ : BPState) (lines : List String) :
    Except String (BPState × Out) := do
  let (σ1, out1) ← processLinesGo cfg σ {} lines
  let (σ2, cs) ← closeCurrentBlock cfg σ1
  let (_, σ3, out3) ← adjustBq cfg σ2 (out1.app cs) ""
  pure (σ3, out3)

/-- `BlockParser.process_lines`: pass 1 into a null sink, counter reset,
registry hand-over, then pass 2. -/
def processLinesTwoPass (cfg : Config) (lines : List String) :
    Except String (BPState × Out) := do
  let (σ1, _) ← processLinesOnce cfg ({} : BPState) lines
  let σ2 :=
    { σ1 with
      w := { nextTocNumber := 0, nextEqnNumber := 1, tocHeaders := [] }
      toc := some σ1.w.tocHeaders }
  processLinesOnce cfg σ2 lines

/-- `Wikidot.to_html`: the pass-2 output, joined from the write chunks. -/
def toHtml (cfg : Config) (lines : List String) : Except String String :=
  (processLinesTwoPass cfg lines).map (fun r => String.join r.2.chunks)


/-- Spec-side: the chunk for one emitted cell rendered with an explicitly
given colspan (the claim's wording fixes the colspan, everything else is
`Table.print_full_cell`). -/
def specRenderCell (cfg : Config) (cell : String) (colspan : Nat) :
    Except String String :=
  Except.map Prod.snd (printFullCell cfg { colspan := colspan } cell)

/-- Spec-side: the claim's description of a full row. `absorbed` counts
the empty cells immediately preceding the next non-empty cell; that cell
is rendered with colspan `1 + absorbed`, and trailing empty cells emit
nothing. -/
def specRenderRow (cfg : Config) :
    Nat → List String → Except String (List String)
  | _, [] => .ok []
  | absorbed, c :: rest =>
    if c = "" then specRenderRow cfg (absorbed + 1) rest
    else do
      let chunk ← specRenderCell cfg c (1 + absorbed)
      let cs ← specRenderRow cfg 0 rest
      pure (chunk :: cs)

/-! ## Verification -/

/-- Default configuration (empty affixes), used for concrete runs. -/
def cfg0 : Config := { imagePre := "", linkPre := "", linkSuf := "" }

theorem hasNL_mono {l₁ l₂ : List Char} (h : List.Sublist l₁ l₂)
    (h₂ : hasNL l₂ = false) : hasNL l₁ = false := by
  unfold hasNL at *
  rw [List.any_eq_false] at *
  exact fun a ha => h₂ a (h.subset ha)

theorem dollarTrim_sublist (s : String) :
    List.Sublist (dollarTrim s).data s.data := by
  unfold dollarTrim
  split
  · exact List.dropLast_sublist s.data
  · exact List.Sublist.refl _

theorem rxP_some (line : String) (h : hasNL line.data = false) :
    rxP line =
      some (stripBr (String.mk ((dollarTrim line).data.dropWhile pyIsSpace))) := by
  have h1 : hasNL ((dollarTrim line).data.dropWhile pyIsSpace) = false :=
    hasNL_mono ((List.dropWhile_sublist _).trans (dollarTrim_sublist line)) h
  unfold rxP
  simp [h1]

/-- C5: for every newline-free input line (the only strings the driver can
produce from `readlines` plus `rstrip`), `analyze_line` returns a
(kind, match) pair: the paragraph fallback always matches, so the
"unparseable line" branch is unreachable for top-level lines. -/
theorem c5_analyze_line_total (line : String) (cur : Option Blk)
    (h : hasNL line.data = false) :
    ∃ r, analyzeLine line cur = .ok r := by
  have hp := rxP_some line h
  unfold analyzeLine
  dsimp only
  split
  · exact ⟨_, rfl⟩
  · split
    · exact ⟨_, rfl⟩
    · split
      · exact ⟨_, rfl⟩
      · rw [hp]
        exact ⟨_, rfl⟩

theorem c5_witness :
    hasNL ("|| not really a table".data) = false ∧
    ∃ r, analyzeLine "|| not really a table" none = .ok r :=
  ⟨by decide, c5_analyze_line_total "|| not really a table" none (by decide)⟩

/-- C7: the two-pass compilation is deterministic: byte-identical input and
identical configuration give byte-identical output. -/
theorem c7_two_pass_deterministic (cfg₁ cfg₂ : Config)
    (lines₁ lines₂ : List String) (hc : cfg₁ = cfg₂) (hl : lines₁ = lines₂) :
    toHtml cfg₁ lines₁ = toHtml cfg₂ lines₂ := by
  subst hc
  subst hl
  rfl

theorem c7_witness :
    cfg0 = cfg0 ∧
    toHtml cfg0 ["+ A", "[[toc]]"] = toHtml cfg0 ["+ A", "[[toc]]"] :=
  ⟨rfl, c7_two_pass_deterministic cfg0 cfg0 ["+ A", "[[toc]]"]
    ["+ A", "[[toc]]"] rfl rfl⟩

/-- C2 counterexample: a span opened by `[[span ...]]` and never closed
still renders as real `<span>...</span>` markup (with both tags), not as
its raw marker text followed by its children. -/
theorem c2_counterexample :
    (parseToks cfg0 initParser (tokenLex "[[span class=\"x\"]]b")).map
        (strTopNode cfg0) = .ok "<span class=\"x\">b</span>" ∧
    ("<span class=\"x\">b</span>" : String) ≠ "[[span class=\"x\"]]" ++ "b" :=
  ⟨rfl, by decide⟩

/-- C2 amended: for every inline style node except the generic span
(bold, italic, fixed-width, strike-through, underline, subscript,
superscript, color, size), a node whose closure still resolves to open
renders as its leading-space hoist, then the raw marker, then its
children's rendering — no HTML tag is emitted for the node.  A generic
span node instead always renders as a balanced
`<span ...>...</span>` pair, closed or not (see the counterexample). -/
theorem c2_unclosed_non_span_renders_marker (cfg : Config)
    (m : List (Nat × CVal)) (k : NKind) (raw opTag clTag : String)
    (id : Nat) (cs : Children)
    (hk : k = .bold ∨ k = .italic ∨ k = .fixedWidth ∨ k = .strikeThru ∨
          k = .underline ∨ k = .subscript ∨ k = .superscript ∨
          k = .color ∨ k = .size)
    (hopen : resolveClosed m (m.length + 1) id = false) :
    renderChild cfg m (.node k raw opTag clTag id cs) =
      (nodeFirstRest cfg m cs).1 ++ raw ++ (nodeFirstRest cfg m cs).2 := by
  rcases hk with rfl | rfl | rfl | rfl | rfl | rfl | rfl | rfl | rfl <;>
    simp [renderChild, hopen]

theorem c2_witness :
    resolveClosed [] 1 0 = false ∧
    renderChild cfg0 []
        (.node .bold "**" "strong" "strong" 0 (.cons (.text "x") .nil)) =
      (nodeFirstRest cfg0 [] (.cons (.text "x") .nil)).1 ++ "**" ++
        (nodeFirstRest cfg0 [] (.cons (.text "x") .nil)).2 :=
  ⟨rfl, c2_unclosed_non_span_renders_marker cfg0 [] .bold "**" "strong"
    "strong" 0 (.cons (.text "x") .nil) (Or.inl rfl) rfl⟩


/-- Spec-side for C4: the chunks written for the lines after a dropped
first line: every line is escaped and written (blank or not), with a
newline chunk after each line except the last. -/
def escTail : List MatchData → List String
  | [] => []
  | [m] => [htmlEscape m.contentG]
  | m :: rest => htmlEscape m.contentG :: "\n" :: escTail rest

theorem code_fold_tail (n : Nat) (ms : List MatchData) (j : Nat)
    (acc : List String) (hj : 1 ≤ j) (hn : j + ms.length = n) :
    (List.enumFrom j ms).foldl
      (fun acc iv =>
        if iv.1 = 0 && rxBlankLine iv.2.contentG then acc
        else
          let acc2 := acc ++ [htmlEscape iv.2.contentG]
          if iv.1 < n - 1 then acc2 ++ ["\n"] else acc2)
      acc = acc ++ escTail ms := by
  induction ms generalizing j acc with
  | nil => simp [escTail]
  | cons m rest ih =>
    rw [List.enumFrom_cons]
    simp only [List.foldl_cons]
    have hj0 : (decide (j = 0) && rxBlankLine m.contentG) = false := by
      have : j ≠ 0 := by omega
      simp [this]
    rw [hj0]
    simp only [Bool.false_eq_true, if_false]
    cases rest with
    | nil =>
      have hlt : ¬ (j < n - 1) := by
        simp at hn
        omega
      simp only [if_neg hlt, List.enumFrom, List.foldl_nil, escTail]
    | cons r rs =>
      have hlt : j < n - 1 := by
        simp at hn
        omega
      rw [if_pos hlt]
      rw [ih (j + 1) _ (by omega) (by simp at hn ⊢; omega)]
      simp [escTail]

/-- C4 counterexample: a code block whose last stored line is blank keeps
that blank line in the rendered chunks (only the first line is dropped):
the rendered content is "x\n " with a trailing whitespace-only line. -/
theorem c4_counterexample :
    writeCodeContent
      { btype := "code", tag := "code"
        matchesL := [.codeStart "" none "", .codeContent "x",
                     .codeContent " "] } = ["x", "\n", " "] ∧
    rxBlankLine " " = true :=
  ⟨rfl, rfl⟩

/-- C4 amended: in a fenced code or math block, only the first stored line
is dropped when its content group is whitespace-only; all later lines,
including trailing whitespace-only ones, are escaped and written. -/
theorem c4_first_line_drop_only (blk : Blk) (m0 : MatchData)
    (ms : List MatchData) (hm : blk.matchesL = m0 :: ms)
    (hblank : rxBlankLine m0.contentG = true) :
    writeCodeContent blk =
      List.replicate blk.outputNesting "[[code]]\n" ++ escTail ms ++
        List.replicate blk.outputNesting "\n[[/code]]" ∧
    writeMathContent blk =
      List.replicate blk.outputNesting "[[math]]\n" ++ escTail ms ++
        List.replicate blk.outputNesting "\n[[/math]]" := by
  unfold writeCodeContent writeMathContent
  rw [hm]
  rw [List.enum_cons]
  simp only [List.foldl_cons, hblank, Bool.and_true, decide_True,
    if_pos, List.length_cons]
  rw [code_fold_tail (ms.length + 1) ms 1 [] (le_refl 1) (by omega)]
  simp

theorem c4_witness :
    ({ btype := "code", tag := "code"
       matchesL := [.codeStart "" none "", .codeContent "a",
                    .codeContent ""] } : Blk).matchesL =
      MatchData.codeStart "" none "" ::
        [MatchData.codeContent "a", MatchData.codeContent ""] ∧
    rxBlankLine (MatchData.codeStart "" none "").contentG = true ∧
    writeCodeContent
      { btype := "code", tag := "code"
        matchesL := [.codeStart "" none "", .codeContent "a",
                     .codeContent ""] } =
      List.replicate 0 "[[code]]\n" ++
        escTail [MatchData.codeContent "a", MatchData.codeContent ""] ++
        List.replicate 0 "\n[[/code]]" :=
  ⟨rfl, rfl,
    (c4_first_line_drop_only
      { btype := "code", tag := "code"
        matchesL := [.codeStart "" none "", .codeContent "a",
                     .codeContent ""] }
      (.codeStart "" none "")
      [.codeContent "a", .codeContent ""] rfl rfl).1⟩

/-- C8: when a color span is already open (and the parser is not inside a
comment or a literal span, where tokens are not interpreted), any further
`##...`-headed token — in particular a color-open token
`##name|` — makes the parse of the token stream fail fatally with the
nested-color exception, so nested color spans are never rendered. -/
theorem mk_ne_of_head {c d : Char} {cs ds : List Char} (h : c ≠ d) :
    String.mk (c :: cs) ≠ String.mk (d :: ds) := by
  intro he
  have hd : c :: cs = d :: ds := congrArg String.data he
  injection hd with h1 _
  exact h h1

theorem mk_cons3_ne_two {a b c : Char} {r : List Char} {d e : Char} :
    String.mk (a :: b :: c :: r) ≠ String.mk [d, e] := by
  intro he
  have hd : a :: b :: c :: r = [d, e] := congrArg String.data he
  injection hd with _ h2
  injection h2 with _ h3
  exact List.cons_ne_nil _ _ h3

theorem c8_nested_color_fails (cfg : Config) (σ : PState) (i : Nat)
    (c : Char) (r : List Char) (rest : List Tok)
    (hcolor : σ.colorF = true) (hcomment : σ.commentF = false)
    (hesc : σ.escapeLiteral = false) (hnoesc : σ.noEscapeLiteral = false) :
    parseGo cfg (Tok.str (String.mk ('#' :: '#' :: c :: r)) :: rest) σ i
        (Tok.str (String.mk ('#' :: '#' :: c :: r)) :: rest) =
      .error "FIXME: nested color" := by
  have h1 : String.mk ('#' :: '#' :: c :: r) ≠ "[!--" :=
    mk_ne_of_head (by decide)
  have h2 : String.mk ('#' :: '#' :: c :: r) ≠ "--]" :=
    mk_ne_of_head (by decide)
  have h3 : String.mk ('#' :: '#' :: c :: r) ≠ "[[/span]]" :=
    mk_ne_of_head (by decide)
  have h4 : String.mk ('#' :: '#' :: c :: r) ≠ "[[/size]]" :=
    mk_ne_of_head (by decide)
  have h5 : String.mk ('#' :: '#' :: c :: r) ≠ "##" := mk_cons3_ne_two
  simp [parseGo, parseToken, hcolor, hcomment, hesc, hnoesc,
    rxWhitespaceMatch, sw, pyIsSpace, h1, h2, h3, h4, h5,
    List.isPrefixOf]

theorem c8_witness :
    ({ colorF := true } : PState).colorF = true ∧
    ({ colorF := true } : PState).commentF = false ∧
    parseGo cfg0 [Tok.str "##red|"] { colorF := true } 0 [Tok.str "##red|"] =
      .error "FIXME: nested color" :=
  ⟨rfl, rfl,
    c8_nested_color_fails cfg0 { colorF := true } 0 'r' ['e', 'd', '|'] []
      rfl rfl rfl rfl⟩

theorem closeCurrentBlock_state (cfg : Config) (σ σ₂ : BPState)
    (cs : List String) (h : closeCurrentBlock cfg σ = .ok (σ₂, cs)) :
    σ₂ = { σ with current := none } := by
  unfold closeCurrentBlock at h
  cases hc : σ.current with
  | none =>
    rw [hc] at h
    simp at h
    exact h.1.symm
  | some b =>
    rw [hc] at h
    simp only [] at h
    cases hb : blockCloseChunks cfg b with
    | error e => rw [hb] at h; simp [Except.map] at h
    | ok cs2 =>
      rw [hb] at h
      simp [Except.map] at h
      exact h.1.symm

/-- C10: a `[[/div]]` line with an empty div stack is consumed without
error: the current block is closed (producing only its own chunks, no
`</div>` write), and the stack stays empty. -/
theorem c10_div_end_with_empty_stack (cfg : Config) (σ : BPState)
    (hdivs : σ.divs = []) :
    checkForDiv cfg σ "[[/div]]" =
      (closeCurrentBlock cfg σ).map (fun r => some r) ∧
    (∀ σ₂ cs, closeCurrentBlock cfg σ = .ok (σ₂, cs) → σ₂.divs = []) := by
  constructor
  · unfold checkForDiv
    rw [show rxDivStart "[[/div]]" = none from rfl]
    rw [show rxDivEnd "[[/div]]" = true from rfl]
    cases hcb : closeCurrentBlock cfg σ with
    | error e => simp [Except.map, bind, Except.bind, hcb]
    | ok r =>
      have hst := closeCurrentBlock_state cfg σ r.1 r.2 (by rw [hcb])
      simp only [Except.map, bind, Except.bind, hcb]
      have : r.1.divs = [] := by rw [hst]; exact hdivs
      simp [this, pure, Except.pure]
  · intro σ₂ cs h
    rw [closeCurrentBlock_state cfg σ σ₂ cs h]
    exact hdivs

theorem c10_witness :
    ({} : BPState).divs = [] ∧
    checkForDiv cfg0 {} "[[/div]]" =
      (closeCurrentBlock cfg0 {}).map (fun r => some r) :=
  ⟨rfl, (c10_div_end_with_empty_stack cfg0 {} rfl).1⟩

theorem checkForDiv_state (cfg : Config) (σ : BPState) (line : String)
    (σ' : BPState) (cs : List String)
    (h : checkForDiv cfg σ line = .ok (some (σ', cs))) :
    ∃ d, σ' = { σ with current := none, divs := d } := by
  unfold checkForDiv at h
  cases hds : rxDivStart line with
  | some attrs =>
    rw [hds] at h
    cases hcb : closeCurrentBlock cfg σ with
    | error e => simp [hcb, bind, Except.bind] at h
    | ok r =>
      obtain ⟨σr, csr⟩ := r
      have hst := closeCurrentBlock_state cfg σ σr csr (by rw [hcb])
      simp [hcb, bind, Except.bind, pure, Except.pure] at h
      refine ⟨σr.divs ++ [parseDivAttrs attrs], ?_⟩
      rw [← h.1, hst]
  | none =>
    rw [hds] at h
    by_cases hde : rxDivEnd line = true
    · rw [if_pos hde] at h
      cases hcb : closeCurrentBlock cfg σ with
      | error e => simp [hcb, bind, Except.bind] at h
      | ok r =>
        obtain ⟨σr, csr⟩ := r
        have hst := closeCurrentBlock_state cfg σ σr csr (by rw [hcb])
        simp only [hcb, bind, Except.bind] at h
        by_cases hemp : σr.divs.isEmpty
        · rw [if_pos hemp] at h
          simp [pure, Except.pure] at h
          refine ⟨σ.divs, ?_⟩
          rw [← h.1, hst]
        · rw [if_neg hemp] at h
          simp [pure, Except.pure] at h
          refine ⟨σr.divs.dropLast, ?_⟩
          rw [← h.1, hst]
    · rw [if_neg hde] at h
      simp [pure, Except.pure] at h

theorem blockTypeAndMatch_state (cfg : Config) (σ : BPState) (line : String)
    (r : Option (String × MatchData)) (σ' : BPState) (cs : List String)
    (h : blockTypeAndMatch cfg σ line = .ok (r, σ', cs)) :
    ∃ v, σ' = { σ with current := v } := by
  have hccb : ∀ (v : Option (String × MatchData))
      (rr : BPState × List String),
      closeCurrentBlock cfg σ = .ok rr →
      (Except.map (fun r0 => (v, r0.1, r0.2))
          (closeCurrentBlock cfg σ) = .ok (r, σ', cs)) →
      ∃ v2, σ' = { σ with current := v2 } := by
    intro v rr hcb hmap
    obtain ⟨σr, csr⟩ := rr
    have hst := closeCurrentBlock_state cfg σ σr csr (by rw [hcb])
    rw [hcb] at hmap
    simp [Except.map] at hmap
    exact ⟨none, by rw [← hmap.2.1, hst]⟩
  unfold blockTypeAndMatch at h
  split at h
  · split at h
    · simp at h
      exact ⟨_, h.2.1.symm⟩
    · split at h
      · split at h
        · split at h
          · cases hcb : closeCurrentBlock cfg σ with
            | error e => rw [hcb] at h; simp [Except.map] at h
            | ok rr => exact hccb _ rr hcb (by rw [hcb]; rw [hcb] at h; exact h)
          · simp at h
            exact ⟨_, h.2.1.symm⟩
        · simp at h
          exact ⟨σ.current, by rw [← h.2.1]⟩
      · split at h
        · simp at h
          exact ⟨σ.current, by rw [← h.2.1]⟩
        · simp at h
  · split at h
    · split at h
      · simp at h
        exact ⟨_, h.2.1.symm⟩
      · split at h
        · split at h
          · split at h
            · cases hcb : closeCurrentBlock cfg σ with
              | error e => rw [hcb] at h; simp [Except.map] at h
              | ok rr => exact hccb _ rr hcb (by rw [hcb]; rw [hcb] at h; exact h)
            · simp at h
              exact ⟨_, h.2.1.symm⟩
          · simp at h
            exact ⟨σ.current, by rw [← h.2.1]⟩
        · split at h
          · simp at h
            exact ⟨σ.current, by rw [← h.2.1]⟩
          · simp at h
    · split at h
      · split at h
        · cases hcb : closeCurrentBlock cfg σ with
          | error e => rw [hcb] at h; simp [Except.map] at h
          | ok rr => exact hccb _ rr hcb (by rw [hcb]; rw [hcb] at h; exact h)
        · split at h
          · cases hcb : closeCurrentBlock cfg σ with
            | error e => rw [hcb] at h; simp [Except.map] at h
            | ok rr => exact hccb _ rr hcb (by rw [hcb]; rw [hcb] at h; exact h)
          · cases hal : analyzeLine line σ.current with
            | error e => rw [hal] at h; simp [Except.map] at h
            | ok rr =>
              rw [hal] at h
              simp [Except.map] at h
              exact ⟨σ.current, by rw [← h.2.1]⟩
      · cases hal : analyzeLine line σ.current with
        | error e => rw [hal] at h; simp [Except.map] at h
        | ok rr =>
          rw [hal] at h
          simp [Except.map] at h
          exact ⟨σ.current, by rw [← h.2.1]⟩

theorem driverAccumulate_fields (cfg : Config) (σ : BPState)
    (btype : String) (m : MatchData) (σ₃ : BPState) (cs : List String)
    (h : driverAccumulate cfg σ btype m = .ok (σ₃, cs)) :
    σ₃.bqLevel = σ.bqLevel ∧ σ₃.toc = σ.toc ∧
    σ₃.continuedLine = σ.continuedLine ∧ σ₃.divs = σ.divs := by
  unfold driverAccumulate at h
  split at h
  · cases hbf : blockFactory cfg σ.w btype m with
    | error e => rw [hbf] at h; simp [bind, Except.bind] at h
    | ok bw =>
      rw [hbf] at h
      simp [bind, Except.bind, pure, Except.pure] at h
      rw [← h.1]
      exact ⟨rfl, rfl, rfl, rfl⟩
  · split at h
    · cases hal : blkAddLine _ btype m true with
      | error e => rw [hal] at h; simp [bind, Except.bind] at h
      | ok blk =>
        rw [hal] at h
        simp [bind, Except.bind, pure, Except.pure] at h
        rw [← h.1]
        exact ⟨rfl, rfl, rfl, rfl⟩
    · split at h
      · cases hal : blkAddLine _ btype m false with
        | error e => rw [hal] at h; simp [bind, Except.bind] at h
        | ok blk =>
          rw [hal] at h
          simp [bind, Except.bind, pure, Except.pure] at h
          rw [← h.1]
          exact ⟨rfl, rfl, rfl, rfl⟩
      · cases hcb : closeCurrentBlock cfg σ with
        | error e => rw [hcb] at h; simp [bind, Except.bind] at h
        | ok rr =>
          obtain ⟨σr, csr⟩ := rr
          have hst := closeCurrentBlock_state cfg σ σr csr (by rw [hcb])
          rw [hcb] at h
          simp only [bind, Except.bind] at h
          cases hbf : blockFactory cfg σr.w btype m with
          | error e => rw [hbf] at h; simp [bind, Except.bind] at h
          | ok bw =>
            rw [hbf] at h
            simp [bind, Except.bind, pure, Except.pure] at h
            rw [← h.1, hst]
            exact ⟨rfl, rfl, rfl, rfl⟩

theorem processAfterAdjust_fields (cfg : Config) (σ : BPState)
    (line : String) (σ' : BPState) (cs : List String)
    (h : processAfterAdjust cfg σ line = .ok (σ', cs)) :
    σ'.bqLevel = σ.bqLevel ∧ σ'.toc = σ.toc ∧
    (σ'.continuedLine = σ.continuedLine ∨ σ'.continuedLine = ew line " _") := by
  unfold processAfterAdjust at h
  simp only [bind, Except.bind, pure, Except.pure] at h
  split at h
  · simp at h
    rw [← h.1]
    exact ⟨rfl, rfl, Or.inl rfl⟩
  · cases hcd : checkForDiv cfg σ line with
    | error e => rw [hcd] at h; simp at h
    | ok o =>
      rw [hcd] at h
      cases o with
      | some res =>
        obtain ⟨σd, csd⟩ := res
        obtain ⟨d, hd⟩ := checkForDiv_state cfg σ line σd csd (by rw [hcd])
        simp at h
        rw [← h.1, hd]
        exact ⟨rfl, rfl, Or.inl rfl⟩
      | none =>
        simp only [] at h
        cases hbt : blockTypeAndMatch cfg σ line with
        | error e => rw [hbt] at h; simp at h
        | ok t =>
          obtain ⟨btm, σ₂, cs₂⟩ := t
          obtain ⟨v, hv⟩ := blockTypeAndMatch_state cfg σ line btm σ₂ cs₂
            (by rw [hbt])
          rw [hbt] at h
          simp only [] at h
          cases btm with
          | none =>
            simp at h
            rw [← h.1, hv]
            exact ⟨rfl, rfl, Or.inl rfl⟩
          | some bm =>
            obtain ⟨btype, m⟩ := bm
            simp only [] at h
            split at h
            · simp at h
              rw [← h.1, hv]
              exact ⟨rfl, rfl, Or.inl rfl⟩
            · cases hda : driverAccumulate cfg σ₂ btype m with
              | error e => rw [hda] at h; simp at h
              | ok p =>
                obtain ⟨σ₃, cs₃⟩ := p
                have hf := driverAccumulate_fields cfg σ₂ btype m σ₃ cs₃
                  (by rw [hda])
                rw [hda] at h
                simp at h
                rw [← h.1]
                refine ⟨?_, ?_, Or.inr rfl⟩
                · show σ₃.bqLevel = σ.bqLevel
                  rw [hf.1, hv]
                · show σ₃.toc = σ.toc
                  rw [hf.2.1, hv]

theorem adjustBq_fields (cfg : Config) (σ : BPState) (out : Out)
    (line l' : String) (σ' : BPState) (out' : Out)
    (h : adjustBq cfg σ out line = .ok (l', σ', out')) :
    σ'.continuedLine = σ.continuedLine ∧ σ'.toc = σ.toc := by
  unfold adjustBq at h
  split at h
  · simp at h
    rw [← h.2.1]
    exact ⟨rfl, rfl⟩
  · simp only [bind, Except.bind] at h
    split at h
    · cases hcb : closeCurrentBlock cfg σ with
      | error e => rw [hcb] at h; simp at h
      | ok rr =>
        obtain ⟨σr, csr⟩ := rr
        have hst := closeCurrentBlock_state cfg σ σr csr (by rw [hcb])
        rw [hcb] at h
        simp [pure, Except.pure] at h
        rw [← h.2.1, hst]
        exact ⟨rfl, rfl⟩
    · simp [pure, Except.pure] at h
      rw [← h.2.1]
      exact ⟨rfl, rfl⟩

theorem adjustBq_line (cfg : Config) (σ : BPState) (out : Out)
    (line l' : String) (σ' : BPState) (out' : Out)
    (n : Nat) (content : String) (br : Bool)
    (hcode : curIsCode σ = false)
    (hm : rxBlockquote line = some (n, content, br))
    (h : adjustBq cfg σ out line = .ok (l', σ', out')) :
    l' = content := by
  unfold adjustBq at h
  rw [hcode] at h
  simp only [Bool.false_eq_true, if_false, hm, bind, Except.bind] at h
  split at h
  · cases hcb : closeCurrentBlock cfg σ with
    | error e => rw [hcb] at h; simp at h
    | ok rr =>
      rw [hcb] at h
      simp [pure, Except.pure] at h
      exact h.1.symm
  · simp [pure, Except.pure] at h
    exact h.1.symm

/-- C1 counterexample: processing the quoted line `"> foo _"` — whose raw
text ends in `' _'` — from the initial driver state leaves
`continued_line` false, because the flag is computed from the
quote-stripped content group, which excludes the `' _'` suffix. -/
theorem c1_counterexample :
    ew "> foo _" " _" = true ∧
    rxBlockquote "> foo _" = some (1, "foo", true) ∧
    (processLine cfg0 {} {} "> foo _").map (fun r => r.1.continuedLine) =
      .ok false :=
  ⟨rfl, rfl, rfl⟩

/-- C1 amended: `continued_line` is recomputed from the line *after*
blockquote quote-stripping (the `content` capture group, which itself
excludes one trailing `' _'`).  Hence a quoted line turns the flag on only
when its stripped content still ends in `' _'`; in particular, when the
content group does not end in `' _'`, the flag is false after the line is
processed, even if the raw line ends in `' _'`. -/
theorem c1_continued_from_stripped_line (cfg : Config) (σ : BPState)
    (out : Out) (line : String) (n : Nat) (content : String) (br : Bool)
    (σ₂ : BPState) (out₂ : Out)
    (hcode : curIsCode σ = false)
    (hm : rxBlockquote (pyRstrip line) = some (n, content, br))
    (hends : ew content " _" = false)
    (hcont : σ.continuedLine = false)
    (h : processLine cfg σ out line = .ok (σ₂, out₂)) :
    σ₂.continuedLine = false := by
  unfold processLine at h
  simp only [bind, Except.bind] at h
  cases ha : adjustBq cfg σ out (pyRstrip line) with
  | error e => rw [ha] at h; simp at h
  | ok r =>
    obtain ⟨l', σ₁, out₁⟩ := r
    have hl : l' = content :=
      adjustBq_line cfg σ out (pyRstrip line) l' σ₁ out₁ n content br
        hcode hm (by rw [ha])
    have hf := adjustBq_fields cfg σ out (pyRstrip line) l' σ₁ out₁
      (by rw [ha])
    rw [ha] at h
    simp only [] at h
    cases hpa : processAfterAdjust cfg σ₁ l' with
    | error e => rw [hpa] at h; simp at h
    | ok p =>
      obtain ⟨σ₂', cs⟩ := p
      have hfa := processAfterAdjust_fields cfg σ₁ l' σ₂' cs (by rw [hpa])
      rw [hpa] at h
      simp [pure, Except.pure] at h
      rw [← h.1]
      rcases hfa.2.2 with hc | hc
      · rw [hc, hf.1, hcont]
      · rw [hc, hl, hends]

theorem c1_witness :
    curIsCode ({} : BPState) = false ∧
    rxBlockquote (pyRstrip ">> keep _") = some (2, "keep", true) ∧
    ew "keep" " _" = false ∧
    ({} : BPState).continuedLine = false ∧
    ∃ σ₂ out₂, processLine cfg0 {} {} ">> keep _" = .ok (σ₂, out₂) ∧
      σ₂.continuedLine = false := by
  refine ⟨rfl, rfl, rfl, rfl, ?_⟩
  refine ⟨_, _, rfl, ?_⟩
  exact c1_continued_from_stripped_line cfg0 {} {} ">> keep _" 2 "keep"
    true _ _ rfl rfl rfl rfl rfl

theorem adjustBq_inv (cfg : Config) (σ : BPState) (out : Out)
    (line l' : String) (σ' : BPState) (out' : Out)
    (h : adjustBq cfg σ out line = .ok (l', σ', out'))
    (hinv : out.bqOpens = out.bqCloses + σ.bqLevel) :
    out'.bqOpens = out'.bqCloses + σ'.bqLevel := by
  unfold adjustBq at h
  split at h
  · simp at h
    rw [← h.2.1, ← h.2.2]
    exact hinv
  · simp only [bind, Except.bind] at h
    split at h
    · cases hcb : closeCurrentBlock cfg σ with
      | error e => rw [hcb] at h; simp at h
      | ok rr =>
        obtain ⟨σr, csr⟩ := rr
        rw [hcb] at h
        simp [pure, Except.pure] at h
        rw [← h.2.1, ← h.2.2]
        split
        · next hgt => simp [Out.app]; omega
        · split
          · next hlt => simp [Out.app]; omega
          · next hng hnl => simp [Out.app]; omega
    · simp [pure, Except.pure] at h
      rw [← h.2.1, ← h.2.2]
      split
      · next hgt => simp [Out.app]; omega
      · split
        · next hlt => simp [Out.app]; omega
        · next hng hnl => simp [Out.app]; omega

theorem processLine_inv (cfg : Config) (σ : BPState) (out : Out)
    (raw : String) (σ₂ : BPState) (out₂ : Out)
    (h : processLine cfg σ out raw = .ok (σ₂, out₂))
    (hinv : out.bqOpens = out.bqCloses + σ.bqLevel) :
    out₂.bqOpens = out₂.bqCloses + σ₂.bqLevel := by
  unfold processLine at h
  simp only [bind, Except.bind] at h
  cases ha : adjustBq cfg σ out (pyRstrip raw) with
  | error e => rw [ha] at h; simp at h
  | ok r =>
    obtain ⟨l', σ₁, out₁⟩ := r
    have h1 := adjustBq_inv cfg σ out (pyRstrip raw) l' σ₁ out₁
      (by rw [ha]) hinv
    rw [ha] at h
    simp only [] at h
    cases hpa : processAfterAdjust cfg σ₁ l' with
    | error e => rw [hpa] at h; simp at h
    | ok p =>
      obtain ⟨σ₂', cs⟩ := p
      have h2 := (processAfterAdjust_fields cfg σ₁ l' σ₂' cs (by rw [hpa])).1
      rw [hpa] at h
      simp [pure, Except.pure] at h
      rw [← h.1, ← h.2]
      simp only [Out.app]
      omega

theorem processLinesGo_inv (cfg : Config) :
    ∀ (lines : List String) (σ : BPState) (out : Out)
      (σ₂ : BPState) (out₂ : Out),
    processLinesGo cfg σ out lines = .ok (σ₂, out₂) →
    out.bqOpens = out.bqCloses + σ.bqLevel →
    out₂.bqOpens = out₂.bqCloses + σ₂.bqLevel := by
  intro lines
  induction lines with
  | nil =>
    intro σ out σ₂ out₂ h hinv
    unfold processLinesGo at h
    simp at h
    rw [← h.1, ← h.2]
    exact hinv
  | cons l rest ih =>
    intro σ out σ₂ out₂ h hinv
    unfold processLinesGo at h
    simp only [bind, Except.bind] at h
    cases hp : processLine cfg σ out l with
    | error e => rw [hp] at h; simp at h
    | ok r =>
      obtain ⟨σ1, out1⟩ := r
      rw [hp] at h
      exact ih σ1 out1 σ₂ out₂ h
        (processLine_inv cfg σ out l σ1 out1 (by rw [hp]) hinv)

theorem adjustBq_level_zero (cfg : Config) (σ : BPState) (out : Out)
    (line l' : String) (σ' : BPState) (out' : Out)
    (hcode : curIsCode σ = false)
    (hrx : rxBlockquote line = none)
    (h : adjustBq cfg σ out line = .ok (l', σ', out')) :
    σ'.bqLevel = 0 := by
  unfold adjustBq at h
  rw [hcode] at h
  simp only [Bool.false_eq_true, if_false, hrx, bind, Except.bind] at h
  split at h
  · cases hcb : closeCurrentBlock cfg σ with
    | error e => rw [hcb] at h; simp at h
    | ok rr =>
      rw [hcb] at h
      simp [pure, Except.pure] at h
      rw [← h.2.1]
  · simp [pure, Except.pure] at h
    rw [← h.2.1]

theorem processLinesOnce_balanced (cfg : Config) (σ : BPState)
    (lines : List String) (σ₂ : BPState) (out : Out)
    (h : processLinesOnce cfg σ lines = .ok (σ₂, out))
    (hlvl : σ.bqLevel = 0) :
    out.bqOpens = out.bqCloses ∧ σ₂.bqLevel = 0 := by
  unfold processLinesOnce at h
  simp only [bind, Except.bind] at h
  cases hg : processLinesGo cfg σ {} lines with
  | error e => rw [hg] at h; simp at h
  | ok r =>
    obtain ⟨σ1, out1⟩ := r
    have hinv1 := processLinesGo_inv cfg lines σ {} σ1 out1 (by rw [hg])
      (by simp [hlvl])
    rw [hg] at h
    simp only [] at h
    cases hcb : closeCurrentBlock cfg σ1 with
    | error e => rw [hcb] at h; simp at h
    | ok rr =>
      obtain ⟨σr, cs⟩ := rr
      have hst := closeCurrentBlock_state cfg σ1 σr cs (by rw [hcb])
      rw [hcb] at h
      simp only [] at h
      cases hab : adjustBq cfg σr (out1.app cs) "" with
      | error e => rw [hab] at h; simp at h
      | ok r3 =>
        obtain ⟨l3, σ3, out3⟩ := r3
        have hcode : curIsCode σr = false := by rw [hst]; rfl
        have hlvl3 := adjustBq_level_zero cfg σr (out1.app cs) ""
          l3 σ3 out3 hcode rfl (by rw [hab])
        have hinvr : (out1.app cs).bqOpens =
            (out1.app cs).bqCloses + σr.bqLevel := by
          simp only [Out.app]
          rw [hst]
          exact hinv1
        have hinv3 := adjustBq_inv cfg σr (out1.app cs) "" l3 σ3 out3
          (by rw [hab]) hinvr
        rw [hab] at h
        simp [pure, Except.pure] at h
        rw [← h.1, ← h.2]
        rw [hlvl3] at hinv3
        exact ⟨by omega, hlvl3⟩

/-- C3: over a whole run of the two-pass driver the number of
`<blockquote>\n` chunks written equals the number of `</blockquote>\n`
chunks written: the end-of-input adjustment against the empty line closes
every container that is still open. -/
theorem c3_blockquote_tags_balanced (cfg : Config) (lines : List String)
    (σf : BPState) (outf : Out)
    (h : processLinesTwoPass cfg lines = .ok (σf, outf)) :
    outf.bqOpens = outf.bqCloses := by
  unfold processLinesTwoPass at h
  simp only [bind, Except.bind] at h
  cases h1 : processLinesOnce cfg {} lines with
  | error e => rw [h1] at h; simp at h
  | ok r =>
    obtain ⟨σ1, o1⟩ := r
    have hp1 := processLinesOnce_balanced cfg {} lines σ1 o1
      (by rw [h1]) rfl
    rw [h1] at h
    simp only [] at h
    exact (processLinesOnce_balanced cfg _ lines σf outf h hp1.2).1

theorem c3_witness :
    ∃ σf outf,
      processLinesTwoPass cfg0 ["> a", ">> b", "c"] = .ok (σf, outf) ∧
      outf.bqOpens = outf.bqCloses ∧
      outf.bqOpens = 2 := by
  refine ⟨_, _, rfl, ?_, by rfl⟩
  exact c3_blockquote_tags_balanced cfg0 ["> a", ">> b", "c"] _ _ rfl

theorem allWs_dollarTrim {s : String} (h : s.data.all pyIsSpace = true) :
    (dollarTrim s).data.all pyIsSpace = true := by
  unfold dollarTrim
  split
  · rw [List.all_eq_true] at *
    exact fun a ha => h a ((List.dropLast_sublist s.data).subset ha)
  · exact h

theorem takeWhile_all {l : List Char} (h : l.all pyIsSpace = true) :
    l.takeWhile pyIsSpace = l := by
  induction l with
  | nil => rfl
  | cons a t ih =>
    rw [List.all_cons, Bool.and_eq_true] at h
    simp [List.takeWhile_cons, h.1, ih h.2]

theorem drop_strlen (t : String) : List.drop t.length t.data = [] :=
  List.drop_length t.data

theorem ne_of_allWs {s : String} (h : s.data.all pyIsSpace = true)
    (t : String) (ht : t.data.all pyIsSpace = false) : s ≠ t := by
  intro he
  rw [he] at h
  rw [h] at ht
  cases ht

theorem rxEmpty_of_allWs {s : String} (h : s.data.all pyIsSpace = true) :
    rxEmpty s = some false := by
  unfold rxEmpty
  simp only [allWs_dollarTrim h, if_true]

theorem rxListLine_of_allWs (marker : Char) {s : String}
    (h : s.data.all pyIsSpace = true) : rxListLine marker s = none := by
  unfold rxListLine
  simp [takeWhile_all (allWs_dollarTrim h), drop_strlen]

theorem rxHN_of_allWs {s : String} (h : s.data.all pyIsSpace = true) :
    rxHN s = none := by
  unfold rxHN
  simp [takeWhile_all (allWs_dollarTrim h), List.drop_length]

theorem rxHR_of_allWs {s : String} (h : s.data.all pyIsSpace = true) :
    rxHR s = none := by
  unfold rxHR
  simp [takeWhile_all (allWs_dollarTrim h), drop_strlen, String.ext_iff]

theorem rxTable_of_allWs {s : String} (h : s.data.all pyIsSpace = true) :
    rxTable s = none := by
  unfold rxTable
  simp [takeWhile_all (allWs_dollarTrim h), drop_strlen]

theorem rxDivStart_of_allWs {s : String} (h : s.data.all pyIsSpace = true) :
    rxDivStart s = none := by
  unfold rxDivStart
  simp [takeWhile_all (allWs_dollarTrim h), List.drop_length]

theorem rxDivEnd_of_allWs {s : String} (h : s.data.all pyIsSpace = true) :
    rxDivEnd s = false := by
  unfold rxDivEnd
  simp only [decide_eq_false_iff_not]
  exact ne_of_allWs (allWs_dollarTrim h) "[[/div]]" (by decide)

theorem checkForDiv_none_of_allWs (cfg : Config) (σ : BPState) {s : String}
    (h : s.data.all pyIsSpace = true) :
    checkForDiv cfg σ s = .ok none := by
  unfold checkForDiv
  rw [rxDivStart_of_allWs h, rxDivEnd_of_allWs h]
  simp [pure, Except.pure]

theorem analyzeLine_of_allWs (cur : Option Blk) {s : String}
    (h : s.data.all pyIsSpace = true) :
    analyzeLine s cur = .ok (BLOCK_TYPE_EMPTY, MatchData.empty false) := by
  unfold analyzeLine
  have hul : rxUL s = none := rxListLine_of_allWs '*' h
  have hol : rxOL s = none := rxListLine_of_allWs '#' h
  simp only [hul, hol, rxHN_of_allWs h, rxHR_of_allWs h, rxTable_of_allWs h,
    rxEmpty_of_allWs h, ite_self]

theorem blockTypeAndMatch_of_allWs (cfg : Config) (σ : BPState) {s : String}
    (hcode : curIsCode σ = false) (hmath : curIsMath σ = false)
    (hpos : σ.bqLevel ≠ 0)
    (h : s.data.all pyIsSpace = true) :
    blockTypeAndMatch cfg σ s =
      .ok (some (BLOCK_TYPE_EMPTY, MatchData.empty false), σ, []) := by
  unfold blockTypeAndMatch
  rw [hcode, hmath]
  simp only [Bool.false_eq_true, if_false]
  rw [if_neg hpos, analyzeLine_of_allWs σ.current h]
  rfl

theorem processAfterAdjust_skip (cfg : Config) (σ : BPState) {s : String}
    (hcode : curIsCode σ = false) (hmath : curIsMath σ = false)
    (hpos : 0 < σ.bqLevel)
    (h : s.data.all pyIsSpace = true) :
    processAfterAdjust cfg σ s = .ok (σ, []) := by
  unfold processAfterAdjust
  have hne : ¬(s = TOC_LITERAL ∧ σ.toc.isSome) := fun hc =>
    ne_of_allWs h TOC_LITERAL (by decide) hc.1
  rw [if_neg hne]
  simp only [bind, Except.bind]
  rw [checkForDiv_none_of_allWs cfg σ h]
  simp only []
  rw [blockTypeAndMatch_of_allWs cfg σ hcode hmath (Nat.pos_iff_ne_zero.mp hpos) h]
  simp only []
  rw [if_pos ⟨by trivial, hpos⟩]
  rfl

theorem adjustBq_eq_level (cfg : Config) (σ : BPState) (out : Out)
    (line content : String) (br : Bool)
    (hcode : curIsCode σ = false)
    (hm : rxBlockquote line = some (σ.bqLevel, content, br)) :
    adjustBq cfg σ out line = .ok (content, σ, out) := by
  unfold adjustBq
  rw [hcode]
  simp only [Bool.false_eq_true, if_false, hm, bind, Except.bind]
  rw [if_neg (by simp)]
  simp [pure, Except.pure, Out.app, lt_irrefl]

/-- C9 amended: while the blockquote level is positive, a quote-marker
line whose stripped content is whitespace-only is skipped entirely —
state and output are returned unchanged — precisely when its marker
count equals the current blockquote level.  (The counterexample theorem
shows the unqualified claim fails when the counts differ.) -/
theorem c9_exact_level_marker_line_skipped (cfg : Config) (σ : BPState)
    (out : Out) (raw content : String) (br : Bool)
    (hcode : curIsCode σ = false) (hmath : curIsMath σ = false)
    (hm : rxBlockquote (pyRstrip raw) = some (σ.bqLevel, content, br))
    (hws : content.data.all pyIsSpace = true)
    (hpos : 0 < σ.bqLevel) :
    processLine cfg σ out raw = .ok (σ, out) := by
  unfold processLine
  simp only [bind, Except.bind]
  rw [adjustBq_eq_level cfg σ out (pyRstrip raw) content br hcode hm]
  simp only []
  rw [processAfterAdjust_skip cfg σ hcode hmath hpos hws]
  simp [pure, Except.pure, Out.app]

/-- C9 counterexample: with the blockquote level at 2 and a paragraph
open, the quote-only line `">"` is NOT skipped: it closes the paragraph,
writes a `</blockquote>` tag and lowers the level to 1. -/
theorem c9_counterexample :
    ∃ out' : Out,
      processLine cfg0
        { current := some { btype := BLOCK_TYPE_P, tag := "p",
                            matchesL := [MatchData.p "x" false] },
          bqLevel := 2 } {} ">" =
        .ok ({ bqLevel := 1 }, out') ∧
      out'.bqCloses = 1 ∧ out'.chunks ≠ [] := by
  refine ⟨_, rfl, rfl, by decide⟩

theorem c9_witness :
    curIsCode { bqLevel := 1 } = false ∧
    curIsMath { bqLevel := 1 } = false ∧
    rxBlockquote (pyRstrip "> ") = some (1, "", false) ∧
    ("" : String).data.all pyIsSpace = true ∧
    0 < 1 ∧
    processLine cfg0 { bqLevel := 1 } {} "> " = .ok ({ bqLevel := 1 }, {}) := by
  refine ⟨rfl, rfl, rfl, rfl, Nat.one_pos, ?_⟩
  exact c9_exact_level_marker_line_skipped cfg0 { bqLevel := 1 } {} "> " ""
    false rfl rfl rfl rfl Nat.one_pos

theorem printFullCell_ts (cfg : Config) (ts : TState) (cell : String) :
    printFullCell cfg ts cell =
      printFullCell cfg { colspan := ts.colspan } cell := rfl

theorem printFullCell_resets (cfg : Config) (ts : TState) (cell : String)
    (ts2 : TState) (ch : String)
    (h : printFullCell cfg ts cell = .ok (ts2, ch)) : ts2.colspan = 1 := by
  unfold printFullCell at h
  simp only [bind, Except.bind] at h
  cases h1 : tsAddContent cfg (startCell (analyzeCell ts cell))
      (startCell (analyzeCell ts cell)).cellContent with
  | error e => rw [h1] at h; simp at h
  | ok ts3 =>
    rw [h1] at h
    simp only [] at h
    cases h2 : tsEndCell cfg ts3 with
    | error e => rw [h2] at h; simp at h
    | ok c2 =>
      rw [h2] at h
      simp [pure, Except.pure] at h
      rw [← h.1]

theorem printCellsLoop_render (cfg : Config) (cells : List String) :
    ∀ (ts : TState) (acc : List String) (ts' : TState) (chunks : List String),
    1 ≤ ts.colspan →
    printCellsLoop cfg ts acc cells = .ok (ts', chunks) →
    ∃ r, specRenderRow cfg (ts.colspan - 1) cells = .ok r ∧
      chunks = acc ++ r := by
  induction cells with
  | nil =>
    intro ts acc ts' chunks hp h
    unfold printCellsLoop at h
    simp at h
    exact ⟨[], rfl, by rw [← h.2]; simp⟩
  | cons c rest ih =>
    intro ts acc ts' chunks hp h
    unfold printCellsLoop at h
    split at h
    · next hc =>
      obtain ⟨r, hr, hch⟩ :=
        ih { ts with colspan := ts.colspan + 1 } acc ts' chunks
          (by simp) h
      refine ⟨r, ?_, hch⟩
      unfold specRenderRow
      rw [if_pos hc]
      have he : ts.colspan - 1 + 1 = ts.colspan := by omega
      rw [he]
      simpa using hr
    · next hc =>
      cases hf : printFullCell cfg ts c with
      | error e => rw [hf] at h; simp at h
      | ok p =>
        obtain ⟨ts2, ch⟩ := p
        rw [hf] at h
        have h1 : ts2.colspan = 1 := printFullCell_resets cfg ts c ts2 ch hf
        obtain ⟨r, hr, hch⟩ := ih ts2 (acc ++ [ch]) ts' chunks (by omega) h
        rw [h1] at hr
        refine ⟨ch :: r, ?_, by rw [hch]; simp⟩
        unfold specRenderRow
        rw [if_neg hc]
        simp only [bind, Except.bind]
        have hsc : specRenderCell cfg c (1 + (ts.colspan - 1)) = .ok ch := by
          unfold specRenderCell
          have h2 : 1 + (ts.colspan - 1) = ts.colspan := by omega
          rw [h2, ← printFullCell_ts cfg ts c, hf]
          rfl
        rw [hsc]
        simp only []
        rw [hr]
        rfl

theorem specRenderRow_length (cfg : Config) (cells : List String) :
    ∀ (a : Nat) (r : List String),
    specRenderRow cfg a cells = .ok r →
    r.length = cells.length - cells.countP (fun c => c == "") := by
  induction cells with
  | nil =>
    intro a r h
    simp [specRenderRow] at h
    subst h
    rfl
  | cons c rest ih =>
    intro a r h
    unfold specRenderRow at h
    split at h
    · next hc =>
      have hlen := ih (a + 1) r h
      have hle := List.countP_le_length (p := fun c => c == "") (l := rest)
      simp [List.countP_cons, hc]
      omega
    · next hc =>
      simp only [bind, Except.bind] at h
      cases hsc : specRenderCell cfg c (1 + a) with
      | error e => rw [hsc] at h; simp at h
      | ok ch =>
        rw [hsc] at h
        cases hr : specRenderRow cfg 0 rest with
        | error e => rw [hr] at h; simp at h
        | ok cs =>
          rw [hr] at h
          simp [pure, Except.pure] at h
          have hlen := ih 0 cs hr
          have hle := List.countP_le_length (p := fun c => c == "") (l := rest)
          rw [← h]
          simp [List.countP_cons, hc]
          omega

/-- C6: a self-contained (full) table row refines the spec's colspan
absorption: each non-empty cell yields one cell element rendered with
colspan 1 + the number of immediately preceding empty cells, trailing
empty cells yield nothing, so the number of elements is N minus the
number of empty cells; and the open tag carries no colspan attribute
unless the value exceeds 1. -/
theorem c6_table_row_colspan (cfg : Config) (ts : TState)
    (cells : List String) (ts' : TState) (chunks : List String)
    (h : printCells cfg ts none cells none none = .ok (ts', chunks)) :
    specRenderRow cfg 0 cells = .ok chunks ∧
    chunks.length = cells.length - cells.countP (fun c => c == "") ∧
    (∀ ts0 : TState, ¬ ts0.colspan > 1 →
      openCellTag ts0 = String.intercalate " " ([ts0.cellType] ++
        (if ts0.textAlign ≠ "" then
          ["style=\"text-align: " ++ ts0.textAlign ++ ";\""] else []))) := by
  unfold printCells at h
  simp only [bind, Except.bind, pure, Except.pure] at h
  cases hl : printCellsLoop cfg { ts with colspan := 1 } [] cells with
  | error e => rw [hl] at h; simp at h
  | ok p =>
    obtain ⟨ts1, lc⟩ := p
    rw [hl] at h
    simp at h
    obtain ⟨r, hr, hch⟩ :=
      printCellsLoop_render cfg cells { ts with colspan := 1 } [] ts1 lc
        (by simp) (by rw [hl])
    simp at hch
    refine ⟨?_, ?_, ?_⟩
    · rw [← h.2, hch]
      simpa using hr
    · rw [← h.2, hch]
      exact specRenderRow_length cfg cells 0 r (by simpa using hr)
    · intro ts0 h0
      unfold openCellTag
      rw [if_neg h0]
      simp

theorem c6_witness :
    ∃ ts' chunks,
      printCells cfg0 {} none ["a", "", "b"] none none =
        .ok (ts', chunks) ∧
      specRenderRow cfg0 0 ["a", "", "b"] = .ok chunks ∧
      chunks.length = (["a", "", "b"] : List String).length -
        (["a", "", "b"] : List String).countP (fun c => c == "") ∧
      chunks = ["<td>a</td>\n", "<td colspan=\"2\">b</td>\n"] := by
  refine ⟨_, _, rfl, ?_, ?_, rfl⟩
  · exact (c6_table_row_colspan cfg0 {} ["a", "", "b"] _ _ rfl).1
  · exact (c6_table_row_colspan cfg0 {} ["a", "", "b"] _ _ rfl).2.1

end Wikidot
